import Mathlib

/-
  Verification development for the Slender lending pool.

  The Rust sources are shallowly embedded: machine integers (i128) become
  Int with explicit range checks, fallible operations become Option or
  Except, contract storage becomes an explicit state record, and panics
  of the soroban host (assert_with_error, unwrap, out-of-range indexing,
  token balance underflow) become dedicated error values, since a panic
  aborts the whole transaction exactly like a returned contract error.
-/

set_option maxRecDepth 8192

namespace Slender

/-! ## i128 arithmetic -/

/-- Largest i128 value. -/
def I128MAX : Int := 2 ^ 127 - 1

/-- Smallest i128 value. -/
def I128MIN : Int := -(2 ^ 127)

/-- Checked i128 arithmetic: the Rust checked operations return None when the
mathematical result leaves the i128 range. -/
def checkedI128 (x : Int) : Option Int :=
  if I128MIN ≤ x ∧ x ≤ I128MAX then some x else none

/-! ## Errors

Mirror of the pool error enum (pool_interface::types::error::Error) restricted
to the variants reachable from the embedded functions, plus dedicated values
for host panics: InvalidMintAmount and InvalidBurnAmount are the s-token
do_mint / do_burn panics, InsufficientBalance is the token balance-underflow
panic, NegativeAmount is the require_nonnegative_amount panic, UnwrapFailure
is a Rust unwrap/expect on None, and OutOfBounds is an unchecked vector
access outside the bounds. -/
inductive Error where
  | Paused
  | GracePeriod
  | GoodPosition
  | BadPosition
  | LiquidateMathError
  | CalcAccountDataMathError
  | MathOverflowError
  | MustNotHaveDebt
  | NotEnoughCollateral
  | CollateralCoeffMathError
  | MustBePositive
  | FlashLoanReceiverError
  | NoReserveExistForAsset
  | NoActiveReserve
  | BorrowingNotEnabled
  | NoPriceForAsset
  | InvalidAssetPrice
  | ValidateBorrowMathError
  | CollateralNotCoverNewBorrow
  | NoPermissioned
  | InvalidMintAmount
  | InvalidBurnAmount
  | InsufficientBalance
  | NegativeAmount
  | UnwrapFailure
  | OutOfBounds
deriving DecidableEq, Repr

/-- Mirror of Option::ok_or, lifting an optional value into Except with the
given error. -/
def orErr (o : Option α) (e : Error) : Except Error α :=
  match o with
  | some a => .ok a
  | none => .error e

theorem orErr_error {o : Option α} {e e' : Error} (h : orErr o e = .error e') : e' = e := by
  cases o <;> simp [orErr] at h
  exact h.symm

theorem orErr_ok {o : Option α} {e : Error} {a : α} (h : orErr o e = .ok a) : o = some a := by
  cases o <;> simp [orErr] at h
  exact congrArg some h

/-! ## FixedI128

Modelled from the spec (common/src/fixedi128.rs is not under src): a signed
128-bit fixed-point number with denominator 10^9; checked add, sub, mul and
negation; mul_int truncates the product toward zero; recip_mul_int computes
the integer times the denominator divided by the inner value, truncating
toward zero; from_rational multiplies the numerator by the denominator and
divides by the given denominator, truncating toward zero; from_percentage of
a basis-point value is from_rational with denominator 10000.  All rounding
is toward zero, which is the behaviour of Rust i128 division (Int.tdiv). -/
structure FixedI128 where
  inner : Int
deriving DecidableEq, Repr

namespace FixedI128

/-- Fixed denominator of FixedI128, 10^9. -/
def DENOMINATOR : Int := 1000000000

/-- Mirror of FixedI128::from_inner. -/
def from_inner (x : Int) : FixedI128 := ⟨x⟩

/-- Mirror of FixedI128::into_inner. -/
def into_inner (f : FixedI128) : Int := f.inner

/-- Mirror of FixedI128::ONE, the fixed-point representation of 1. -/
def ONE : FixedI128 := ⟨DENOMINATOR⟩

/-- Mirror of FixedI128::checked_add. -/
def checked_add (a b : FixedI128) : Option FixedI128 :=
  (checkedI128 (a.inner + b.inner)).map FixedI128.mk

/-- Mirror of FixedI128::checked_sub. -/
def checked_sub (a b : FixedI128) : Option FixedI128 :=
  (checkedI128 (a.inner - b.inner)).map FixedI128.mk

/-- Mirror of FixedI128::checked_mul: the product of the inner values divided
by the denominator, truncated toward zero. -/
def checked_mul (a b : FixedI128) : Option FixedI128 :=
  (checkedI128 (a.inner * b.inner)).map (fun p => ⟨p.tdiv DENOMINATOR⟩)

/-- Mirror of FixedI128::checked_neg. -/
def checked_neg (a : FixedI128) : Option FixedI128 :=
  (checkedI128 (-a.inner)).map FixedI128.mk

/-- Mirror of FixedI128::mul_int: fixed times integer, truncated toward zero. -/
def mul_int (a : FixedI128) (o : Int) : Option Int :=
  (checkedI128 (a.inner * o)).map (fun p => p.tdiv DENOMINATOR)

/-- Mirror of FixedI128::recip_mul_int: integer times denominator divided by
the inner value, truncated toward zero; None when the inner value is zero. -/
def recip_mul_int (a : FixedI128) (o : Int) : Option Int :=
  if a.inner = 0 then none
  else (checkedI128 (o * DENOMINATOR)).map (fun p => p.tdiv a.inner)

/-- Mirror of FixedI128::from_rational, truncating toward zero. -/
def from_rational (num den : Int) : Option FixedI128 :=
  if den = 0 then none
  else (checkedI128 (num * DENOMINATOR)).map (fun p => ⟨p.tdiv den⟩)

/-- Mirror of FixedI128::from_percentage: basis points over 10000. -/
def from_percentage (pct : Int) : Option FixedI128 :=
  from_rational pct 10000

/-- Mirror of FixedI128::is_positive. -/
def is_positive (a : FixedI128) : Bool := 0 < a.inner

/-- Mirror of FixedI128::is_negative. -/
def is_negative (a : FixedI128) : Bool := a.inner < 0

/-- Mirror of FixedI128::abs. -/
def abs (a : FixedI128) : FixedI128 := ⟨|a.inner|⟩

/-- Mirror of Ord::min on FixedI128, comparing inner values. -/
def fmin (a b : FixedI128) : FixedI128 := ⟨min a.inner b.inner⟩

end FixedI128

/-- Percentage factor from common/src/lib.rs. -/
def PERCENTAGE_FACTOR : Int := 10000

/-! ## Collateral coefficient (methods/utils/get_collat_coeff.rs)

The lender accrued rate is passed in as a value: in the source it is produced
by get_actual_lender_accrued_rate (methods/utils/rate.rs, not under src), and
the formula of the claim treats it as an input as well. -/

/-- Mirror of get_collat_coeff: 1 when the s-token supply is zero, otherwise
from_rational of (underlying balance + lender_ar times debt token supply)
over the s-token supply, every fallible step mapped to
CollateralCoeffMathError. -/
def get_collat_coeff (lender_ar : FixedI128) (s_token_supply s_token_underlying_balance debt_token_supply : Int) : Except Error FixedI128 :=
  if s_token_supply = 0 then .ok FixedI128.ONE
  else do
    let p ← orErr (lender_ar.mul_int debt_token_supply) .CollateralCoeffMathError
    let s ← orErr (checkedI128 (s_token_underlying_balance + p)) .CollateralCoeffMathError
    orErr (FixedI128.from_rational s s_token_supply) .CollateralCoeffMathError

/-- The collateral coefficient as the claim words it: the exact rational
(underlying + lender_ar times debt supply) / s-token supply, evaluated in
rational arithmetic and rounded toward zero once, expressed in inner
fixed-point units. -/
def collatCoeffSingleRounding (lender_ar : FixedI128) (s_token_supply s_token_underlying_balance debt_token_supply : Int) : Int :=
  (s_token_underlying_balance * FixedI128.DENOMINATOR + lender_ar.inner * debt_token_supply).tdiv s_token_supply

/-- The collateral coefficient as the source computes it: the product
lender_ar times debt supply is truncated toward zero to an integer before
the division by the s-token supply. -/
def collatCoeffTwoStep (lender_ar : FixedI128) (s_token_supply s_token_underlying_balance debt_token_supply : Int) : Int :=
  ((s_token_underlying_balance + (lender_ar.inner * debt_token_supply).tdiv FixedI128.DENOMINATOR) * FixedI128.DENOMINATOR).tdiv s_token_supply

/-! ## Cross-feed price aggregation (types/price_provider.rs)

In PriceProvider::price each feed produces a normalized TWAP inner value,
which is inserted into a soroban Map keyed by the value itself
(sorted_twap_prices.set(twap_price, twap_price)); the median is then taken
over Map::keys, which is the ascending list of the distinct keys.  The list
of per-feed normalized TWAP values is the input here. -/

/-- Insertion of a key into the ascending duplicate-free key list of a
soroban Map: an existing key is overwritten, so the list is unchanged. -/
def insertUniqueAsc (x : Int) : List Int → List Int
  | [] => [x]
  | y :: ys =>
    if x < y then x :: y :: ys
    else if x = y then y :: ys
    else y :: insertUniqueAsc x ys

/-- The ascending duplicate-free key list of the soroban Map after inserting
every element of the list (Map::keys after the feed loop). -/
def mapKeysAsc (l : List Int) : List Int :=
  l.foldl (fun acc x => insertUniqueAsc x acc) []

/-- Mirror of PriceProvider::median over a soroban Vec: a single element is
returned directly; otherwise index = len / 2; for even length the two
middle elements are added with checked_add and divided by 2 (i128 division,
truncation toward zero); for odd length the middle element is returned.
Unchecked accesses outside the vector become the OutOfBounds panic (for the
empty vector the even branch computes index 0 - 1 in u32, which traps). -/
def median (prices : List Int) : Except Error Int :=
  match prices with
  | [] => .error .OutOfBounds
  | [p] => .ok p
  | _ =>
    let len := prices.length
    let index := len / 2
    if len % 2 = 0 then
      match prices.get? (index - 1), prices.get? index with
      | some p1, some p2 =>
        match checkedI128 (p1 + p2) with
        | some s => .ok (s.tdiv 2)
        | none => .error .MathOverflowError
      | _, _ => .error .OutOfBounds
    else
      match prices.get? index with
      | some p => .ok p
      | none => .error .OutOfBounds

/-- Mirror of the cross-feed aggregation in PriceProvider::price: the median
of the key list of the map holding the per-feed TWAP values. -/
def crossFeedPrice (twaps : List Int) : Except Error Int :=
  median (mapKeysAsc twaps)

/-- Ordered insertion keeping duplicates, for the spec-side multiset sort. -/
def insertAsc (x : Int) : List Int → List Int
  | [] => [x]
  | y :: ys => if x ≤ y then x :: y :: ys else y :: insertAsc x ys

/-- Insertion sort keeping duplicates: the ascending multiset ordering. -/
def sortAsc (l : List Int) : List Int :=
  l.foldr insertAsc []

/-- Median of an already sorted list as the spec words it: the middle element
for an odd count, the arithmetic mean of the two middle elements truncated
toward zero for an even count. -/
def medianOfSortedSpec (s : List Int) : Option Int :=
  if s.length = 0 then none
  else if s.length % 2 = 1 then s.get? (s.length / 2)
  else
    match s.get? (s.length / 2 - 1), s.get? (s.length / 2) with
    | some a, some b => some ((a + b).tdiv 2)
    | _, _ => none

/-- The median of a list taken as a multiset, as the claim words it: sort
keeping duplicates, then take the middle (or the truncated mean of the two
middle elements). -/
def multisetMedianSpec (l : List Int) : Option Int :=
  medianOfSortedSpec (sortAsc l)

/-! ## Chain state

Addresses are natural numbers.  The state collects the ledgers the embedded
entry points touch: per-token holder balances (underlying assets, s-tokens
and debt-tokens all live in token contracts with the common-token balance
storage), per-token total supply (the token storage and the pool mirror,
kept in one map), the pool mirror of user balances (write_token_balance),
the STokenUnderlyingBalance counter, the user configuration bitmaps and the
pause bookkeeping. -/

/-- Update of a one-key map. -/
def upd1 (f : Nat → Int) (k : Nat) (v : Int) : Nat → Int :=
  fun x => if x = k then v else f x

/-- Update of a two-key map. -/
def upd2 (f : Nat → Nat → Int) (k1 k2 : Nat) (v : Int) : Nat → Nat → Int :=
  fun x y => if x = k1 ∧ y = k2 then v else f x y

/-- Update of a two-key boolean map. -/
def updB (f : Nat → Nat → Bool) (k1 k2 : Nat) (v : Bool) : Nat → Nat → Bool :=
  fun x y => if x = k1 ∧ y = k2 then v else f x y

structure ChainState where
  paused : Bool
  unpausedAt : Nat
  gracePeriodSecs : Nat
  now : Nat
  tokenBalance : Nat → Nat → Int
  totalSupply : Nat → Int
  mirrorBalance : Nat → Nat → Int
  mirrorSupply : Nat → Int
  stokenUnderlying : Nat → Int
  collateralBit : Nat → Nat → Bool
  borrowBit : Nat → Nat → Bool

/-- Mirror of require_not_paused (LendingPool::require_not_paused in
pool/src/lib.rs; the validation module of the contracts tree is not under
src): it checks the pause flag only. -/
def require_not_paused (st : ChainState) : Except Error Unit :=
  if st.paused then .error .Paused else .ok ()

/-- Modelled from the spec (section 5, gate logic): the grace period is the
window before unpause_time + grace_period_secs has elapsed. -/
def inGracePeriod (st : ChainState) : Bool :=
  decide (st.now < st.unpausedAt + st.gracePeriodSecs)

/-- Modelled from the spec (section 6, underlying asset token contract):
transfer moves a nonnegative amount and traps when the sender balance is
insufficient, as the standard token contract does. -/
def tokenTransfer (st : ChainState) (token fromAddr toAddr : Nat) (amount : Int) : Except Error ChainState :=
  if amount < 0 then .error .NegativeAmount
  else if st.tokenBalance token fromAddr < amount then .error .InsufficientBalance
  else
    let spent := upd2 st.tokenBalance token fromAddr (st.tokenBalance token fromAddr - amount)
    .ok { st with tokenBalance := upd2 spent token toAddr (spent token toAddr + amount) }

/-- Mirror of common-token spend_balance (balance module of common-token, not
under src; standard soroban token semantics): trap when the balance is
smaller than the spent amount. -/
def spendBalance (st : ChainState) (token holder : Nat) (amount : Int) : Except Error ChainState :=
  if st.tokenBalance token holder < amount then .error .InsufficientBalance
  else .ok { st with tokenBalance := upd2 st.tokenBalance token holder (st.tokenBalance token holder - amount) }

/-- Mirror of common-token receive_balance. -/
def receiveBalance (st : ChainState) (token holder : Nat) (amount : Int) : ChainState :=
  { st with tokenBalance := upd2 st.tokenBalance token holder (st.tokenBalance token holder + amount) }

/-- Mirror of common-token add_total_supply with a checked addition. -/
def addTotalSupply (st : ChainState) (token : Nat) (amount : Int) : Except Error ChainState :=
  match checkedI128 (st.totalSupply token + amount) with
  | some v => .ok { st with totalSupply := upd1 st.totalSupply token v }
  | none => .error .UnwrapFailure

/-- Mirror of SToken::do_mint: a zero amount panics, then receive_balance and
add_total_supply. -/
def sTokenDoMint (st : ChainState) (sToken toAddr : Nat) (amount : Int) : Except Error ChainState :=
  if amount = 0 then .error .InvalidMintAmount
  else addTotalSupply (receiveBalance st sToken toAddr amount) sToken amount

/-- Mirror of SToken::do_burn: a zero burn amount panics, then spend_balance,
add_total_supply of the checked negation, and the transfer of the underlying
from the s-token contract to the recipient. -/
def sTokenDoBurn (st : ChainState) (sToken underlyingAsset fromAddr : Nat) (amount_to_burn amount_to_withdraw : Int) (toAddr : Nat) : Except Error ChainState := do
  if amount_to_burn = 0 then .error .InvalidBurnAmount
  else do
    let st1 ← spendBalance st sToken fromAddr amount_to_burn
    let neg ← orErr (checkedI128 (-amount_to_burn)) .UnwrapFailure
    let st2 ← addTotalSupply st1 sToken neg
    tokenTransfer st2 underlyingAsset sToken toAddr amount_to_withdraw

/-- Mirror of SToken::transfer_on_liquidation, which runs do_transfer without
the pool finalize validation: spend from the sender, receive at the
recipient. -/
def sTokenTransferOnLiquidation (st : ChainState) (sToken fromAddr toAddr : Nat) (amount : Int) : Except Error ChainState := do
  let st1 ← spendBalance st sToken fromAddr amount
  .ok (receiveBalance st1 sToken toAddr amount)

/-- Mirror of SToken::transfer_underlying_to: a negative amount panics, then
the underlying token is transferred from the s-token contract to the
recipient. -/
def sTokenTransferUnderlyingTo (st : ChainState) (sToken underlyingAsset toAddr : Nat) (amount : Int) : Except Error ChainState :=
  if amount < 0 then .error .NegativeAmount
  else tokenTransfer st underlyingAsset sToken toAddr amount

/-- Mirror of debt-token burn (the debt-token contract is not under src; its
burn spends the holder balance and decreases its supply like the common-token
operations). -/
def debtTokenBurn (st : ChainState) (debtToken fromAddr : Nat) (amount : Int) : Except Error ChainState := do
  let st1 ← spendBalance st debtToken fromAddr amount
  let neg ← orErr (checkedI128 (-amount)) .UnwrapFailure
  addTotalSupply st1 debtToken neg

/-- Mirror of add_stoken_underlying_balance: checked addition into the
STokenUnderlyingBalance counter, MathOverflowError on failure. -/
def addStokenUnderlyingBalance (st : ChainState) (sToken : Nat) (amount : Int) : Except Error ChainState :=
  match checkedI128 (st.stokenUnderlying sToken + amount) with
  | some v => .ok { st with stokenUnderlying := upd1 st.stokenUnderlying sToken v }
  | none => .error .MathOverflowError

/-- Mirror of write_token_total_supply (the pool mirror of a token total
supply, distinct from the internal supply storage of the token contract). -/
def writeTokenTotalSupply (st : ChainState) (token : Nat) (v : Int) : ChainState :=
  { st with mirrorSupply := upd1 st.mirrorSupply token v }

/-- Mirror of write_token_balance (the pool mirror of a token balance). -/
def writeTokenBalance (st : ChainState) (token user : Nat) (v : Int) : ChainState :=
  { st with mirrorBalance := upd2 st.mirrorBalance token user v }

/-- Price conversion interface of PriceProvider: convert_to_base and
convert_from_base.  For the base asset both are the identity (the source
short-circuits); for other assets they go through feeds, which the
embedding keeps abstract. -/
structure PriceOps where
  toBase : Nat → Int → Except Error Int
  fromBase : Nat → Int → Except Error Int

/-- The base-asset instance of the price conversions: both directions return
the amount unchanged, which is the source path when the asset equals the
base asset. -/
def idPriceOps : PriceOps := ⟨fun _ a => .ok a, fun _ a => .ok a⟩

/-! ## Liquidation engine (methods/liquidate.rs)

calc_account_data (methods/account_position.rs, not under src) produces the
AccountData value; the embedding takes that value as an input and mirrors
everything liquidate does with it.  recalculate_reserve_data only refreshes
the interest-rate bookkeeping of the reserve and is modelled as the
identity on the state, since no embedded claim reads the rate fields. -/

/-- Mirror of the LiquidationAsset entries of AccountData; one record serves
both the collateral list (comp_balance, coeff, discount of the reserve
configuration) and the debt list (debt_token_balance, compounded_debt,
debt_coeff). -/
structure LiquidationAsset where
  asset : Nat
  reserveId : Nat
  sTokenAddress : Nat
  debtTokenAddress : Nat
  discountBps : Int
  compBalance : Int
  coeff : Int
  debtTokenBalance : Int
  compoundedDebt : Int
  debtCoeff : Int

/-- Mirror of AccountData (types/account_data.rs) with the liquidation lists
named as liquidate.rs reads them. -/
structure AccountData where
  discountedCollateral : Int
  debt : Int
  npv : Int
  liquidationCollat : Option (List LiquidationAsset)
  liquidationDebt : Option (List LiquidationAsset)

/-- Mirror of AccountData::is_good_position: npv strictly positive. -/
def AccountData.is_good_position (ad : AccountData) : Bool := 0 < ad.npv

/-- The quantities liquidate computes once before the collateral loop. -/
structure LiqParams where
  initialHealth : FixedI128
  hundred : FixedI128
  liqBonus : FixedI128
  totalDebtLiqBonus : FixedI128

/-- Observable outcome of one collateral-leg iteration. -/
structure CollatStepOut where
  seized : Int
  debtInBase : Int
  npvAfter : Int
  liqLp : Int

/-- Running state of the collateral loop: the three running totals, the last
computed npv, the chain state and the record of processed legs. -/
structure CollatAcc where
  totalDebtAfter : Int
  totalCollatDiscAfter : Int
  totalDebtToCover : Int
  npvLast : Int
  st : ChainState
  steps : List CollatStepOut

/-- The receive_stoken conditional of a collateral-leg iteration (lines 161
to 195 of methods/liquidate.rs).  In the receive_stoken branch the source
snapshot names s_token_amount, reserve and asset, which are not bound in the
live function; they are read as liq_lp_amount, collat.reserve and
collat.asset, the values of the surrounding iteration.  Returns the updated
chain state together with the s-token supply to write back. -/
def collatStepBranch (receiveStoken : Bool) (liquidator who : Nat) (st : ChainState)
    (collat : LiquidationAsset) (sTokenSupply liqLpAmount liqMaxCompAmount : Int) :
    Except Error (ChainState × Int) :=
  if receiveStoken then
    if st.borrowBit liquidator collat.reserveId then .error .MustNotHaveDebt
    else do
      let before := st.mirrorBalance collat.sTokenAddress liquidator
      let after ← orErr (checkedI128 (before + liqLpAmount)) .MathOverflowError
      let stA ← sTokenTransferOnLiquidation st collat.sTokenAddress who liquidator liqLpAmount
      let stB := writeTokenBalance stA collat.sTokenAddress liquidator after
      let stC := if before = 0 then { stB with collateralBit := updB stB.collateralBit liquidator collat.reserveId true } else stB
      .ok (stC, sTokenSupply)
  else do
    let amountToSub ← orErr (checkedI128 (-liqLpAmount)) .LiquidateMathError
    let supply' ← orErr (checkedI128 (sTokenSupply - liqLpAmount)) .MathOverflowError
    let stA ← sTokenDoBurn st collat.sTokenAddress collat.asset who liqLpAmount liqMaxCompAmount liquidator
    let stB ← addStokenUnderlyingBalance stA collat.sTokenAddress amountToSub
    .ok (stB, supply')

/-- Mirror of one iteration of the collateral loop of liquidate (lines 91 to
211 of methods/liquidate.rs). -/
def collatStep (conv : PriceOps) (P : LiqParams) (receiveStoken : Bool) (liquidator who : Nat) (acc : CollatAcc) (collat : LiquidationAsset) : Except Error CollatAcc := do
  let discount ← orErr (FixedI128.from_percentage collat.discountBps) .CalcAccountDataMathError
  let hsub ← orErr (P.hundred.checked_sub P.initialHealth) .UnwrapFailure
  let m ← orErr (hsub.mul_int acc.totalCollatDiscAfter) .CalcAccountDataMathError
  let safeCollatInBase ← orErr (checkedI128 (m - acc.totalDebtAfter)) .CalcAccountDataMathError
  let safeDiscountLevel ← orErr (discount.checked_mul P.initialHealth) .CalcAccountDataMathError
  let s1 ← orErr (discount.checked_add P.liqBonus) .CalcAccountDataMathError
  let s2 ← orErr (s1.checked_sub P.hundred) .CalcAccountDataMathError
  let safeDiscount ← orErr (s2.checked_sub safeDiscountLevel) .CalcAccountDataMathError
  let lc0 ← conv.fromBase collat.asset safeCollatInBase
  let liqCompAmount ← orErr (safeDiscount.recip_mul_int lc0) .CalcAccountDataMathError
  let liqMaxCompAmount := if liqCompAmount < 0 then collat.compBalance else min collat.compBalance liqCompAmount
  let totalSubCompAmount ← orErr (discount.mul_int liqMaxCompAmount) .CalcAccountDataMathError
  let totalSubAmountInBase ← conv.toBase collat.asset totalSubCompAmount
  let debtCompAmount ← orErr (P.totalDebtLiqBonus.mul_int liqMaxCompAmount) .CalcAccountDataMathError
  let debtInBase ← conv.toBase collat.asset debtCompAmount
  let totalDebtAfter ← orErr (checkedI128 (acc.totalDebtAfter - debtInBase)) .CalcAccountDataMathError
  let totalCollatDiscAfter ← orErr (checkedI128 (acc.totalCollatDiscAfter - totalSubAmountInBase)) .CalcAccountDataMathError
  let npvAfter ← orErr (checkedI128 (totalCollatDiscAfter - totalDebtAfter)) .CalcAccountDataMathError
  let sTokenSupply := acc.st.mirrorSupply collat.sTokenAddress
  let liqLpAmount ← orErr ((FixedI128.from_inner collat.coeff).recip_mul_int liqMaxCompAmount) .LiquidateMathError
  let pr ← collatStepBranch receiveStoken liquidator who acc.st collat sTokenSupply liqLpAmount liqMaxCompAmount
  let stFinal := writeTokenTotalSupply pr.1 collat.sTokenAddress pr.2
  .ok { totalDebtAfter := totalDebtAfter
      , totalCollatDiscAfter := totalCollatDiscAfter
      , totalDebtToCover := acc.totalDebtToCover + debtInBase
      , npvLast := npvAfter
      , st := stFinal
      , steps := acc.steps ++ [{ seized := liqMaxCompAmount, debtInBase := debtInBase, npvAfter := npvAfter, liqLp := liqLpAmount }] }

/-- Mirror of the collateral loop: process the legs in order; after a leg,
break out of the loop when the freshly computed npv_after is positive
(i128::is_positive). -/
def collatLoop (conv : PriceOps) (P : LiqParams) (receiveStoken : Bool) (liquidator who : Nat) : List LiquidationAsset → CollatAcc → Except Error CollatAcc
  | [], acc => .ok acc
  | collat :: rest, acc =>
    match collatStep conv P receiveStoken liquidator who acc collat with
    | .error e => .error e
    | .ok acc' => if 0 < acc'.npvLast then .ok acc' else collatLoop conv P receiveStoken liquidator who rest acc'

/-- Observable outcome of one debt-leg iteration. -/
structure DebtStepOut where
  burned : Int
  transferred : Int
  fully : Bool

/-- Running state of the debt loop. -/
structure DebtAcc where
  st : ChainState
  totalDebtToCover : Int
  steps : List DebtStepOut

/-- Mirror of one iteration of the debt loop of liquidate (lines 218 to 279):
cover a leg in full when the remaining debt-to-cover is at least its
compounded debt in base (clearing the borrow bit), otherwise burn the part
of the debt corresponding to the remaining debt-to-cover. -/
def debtStepBranch (conv : PriceOps) (who : Nat) (acc : DebtAcc) (debt : LiquidationAsset) (cdb : Int) : Except Error (Int × ChainState × Int × Int × Bool) :=
  if cdb ≤ acc.totalDebtToCover then
    .ok (acc.totalDebtToCover - cdb,
      { acc.st with borrowBit := updB acc.st.borrowBit who debt.reserveId false },
      debt.debtTokenBalance, debt.compoundedDebt, true)
  else do
    let compounded ← conv.fromBase debt.asset acc.totalDebtToCover
    let debtToBurn ← orErr ((FixedI128.from_inner debt.debtCoeff).recip_mul_int compounded) .LiquidateMathError
    .ok (0, acc.st, debtToBurn, compounded, false)

def debtStep (conv : PriceOps) (liquidator who : Nat) (acc : DebtAcc) (debt : LiquidationAsset) : Except Error DebtAcc := do
  let cdb ← conv.toBase debt.asset debt.compoundedDebt
  let br ← debtStepBranch conv who acc debt cdb
  let (toCover', stA, burnAmt, transferAmt, fully) := br
  let st1 ← tokenTransfer stA debt.asset liquidator debt.sTokenAddress transferAmt
  let st2 ← debtTokenBurn st1 debt.debtTokenAddress who burnAmt
  let dts := st2.mirrorSupply debt.debtTokenAddress
  let dts' ← orErr (checkedI128 (dts - burnAmt)) .MathOverflowError
  let st3 ← addStokenUnderlyingBalance st2 debt.sTokenAddress transferAmt
  let st4 := writeTokenTotalSupply st3 debt.debtTokenAddress dts'
  let st5 := writeTokenBalance st4 debt.debtTokenAddress who (debt.debtTokenBalance - burnAmt)
  .ok { st := st5
      , totalDebtToCover := toCover'
      , steps := acc.steps ++ [{ burned := burnAmt, transferred := transferAmt, fully := fully }] }

/-- Mirror of the debt loop: stop before a leg when the remaining
debt-to-cover is zero. -/
def debtLoop (conv : PriceOps) (liquidator who : Nat) : List LiquidationAsset → DebtAcc → Except Error DebtAcc
  | [], acc => .ok acc
  | debt :: rest, acc =>
    if acc.totalDebtToCover = 0 then .ok acc
    else
      match debtStep conv liquidator who acc debt with
      | .error e => .error e
      | .ok acc' => debtLoop conv liquidator who rest acc'

/-- Observable result of a completed liquidate call. -/
structure LiqResult where
  state : ChainState
  collatSteps : List CollatStepOut
  debtToCoverAfterCollat : Int
  debtToCoverFinal : Int
  debtSteps : List DebtStepOut

/-- Mirror of liquidate (methods/liquidate.rs): require_auth on the
liquidator is ambient, require_not_paused checks the pause flag, the
already-computed account data is rejected with GoodPosition when the
position is good, the liquidation lists must be present and nonempty, the
bonus quantities are computed once, then the collateral loop and the debt
loop run. -/
def liquidate (conv : PriceOps) (st0 : ChainState) (liquidator who : Nat) (ihBps : Int) (ad : AccountData) (receiveStoken : Bool) : Except Error LiqResult := do
  let _ ← require_not_paused st0
  if ad.is_good_position then .error .GoodPosition
  else do
    let collats ← orErr ad.liquidationCollat .LiquidateMathError
    let debts ← orErr ad.liquidationDebt .LiquidateMathError
    if ¬(0 < collats.length ∧ 0 < debts.length) then .error .LiquidateMathError
    else do
      let ih ← orErr (FixedI128.from_percentage ihBps) .CalcAccountDataMathError
      let hundred ← orErr (FixedI128.from_percentage PERCENTAGE_FACTOR) .CalcAccountDataMathError
      let npvPercent ← orErr (FixedI128.from_rational ad.npv ad.discountedCollateral) .CalcAccountDataMathError
      let liqBonus := ((npvPercent.fmin (FixedI128.from_inner 0)).abs).fmin hundred
      let tdlb ← orErr (hundred.checked_sub liqBonus) .CalcAccountDataMathError
      let P : LiqParams := { initialHealth := ih, hundred := hundred, liqBonus := liqBonus, totalDebtLiqBonus := tdlb }
      let acc1 ← collatLoop conv P receiveStoken liquidator who collats
        { totalDebtAfter := ad.debt, totalCollatDiscAfter := ad.discountedCollateral
        , totalDebtToCover := 0, npvLast := ad.npv, st := st0, steps := [] }
      let acc2 ← debtLoop conv liquidator who debts
        { st := acc1.st, totalDebtToCover := acc1.totalDebtToCover, steps := [] }
      .ok { state := acc2.st
          , collatSteps := acc1.steps
          , debtToCoverAfterCollat := acc1.totalDebtToCover
          , debtToCoverFinal := acc2.totalDebtToCover
          , debtSteps := acc2.steps }

/-! ## Flash-loan engine (methods/flash_loan.rs) -/

/-- Mirror of pool_interface FlashLoanAsset. -/
structure FlashLoanAsset where
  asset : Nat
  amount : Int
  borrow : Bool

/-- The reserve fields the flash loan reads; require_active_reserve and
require_borrowing_enabled (validation module, not under src) check the
configuration flags as the old-tree validators do. -/
structure ReserveInfo where
  sTokenAddress : Nat
  debtTokenAddress : Nat
  active : Bool
  borrowingEnabled : Bool

/-- One prepared loan leg after the first pass: the receiver asset record
(asset, amount, premium) together with its reserve and the borrow flag. -/
structure LoanLeg where
  asset : Nat
  amount : Int
  premium : Int
  rsv : ReserveInfo
  borrow : Bool

/-- Mirror of the first loop of flash_loan: per leg require a positive
amount, an existing, active, borrowing-enabled reserve, transfer the amount
of underlying from the s-token contract to the receiver, and record the
premium fee times amount. -/
def flashLoanPhase1 (reservesMap : Nat → Option ReserveInfo) (receiver : Nat) (fee : FixedI128) : ChainState → List FlashLoanAsset → Except Error (ChainState × List LoanLeg)
  | st, [] => .ok (st, [])
  | st, la :: rest =>
    if la.amount ≤ 0 then .error .MustBePositive
    else do
      let rsv ← orErr (reservesMap la.asset) .NoReserveExistForAsset
      if ¬rsv.active then .error .NoActiveReserve
      else if ¬rsv.borrowingEnabled then .error .BorrowingNotEnabled
      else do
        let st1 ← sTokenTransferUnderlyingTo st rsv.sTokenAddress la.asset receiver la.amount
        let premium ← orErr (fee.mul_int la.amount) .MathOverflowError
        let pr ← flashLoanPhase1 reservesMap receiver fee st1 rest
        .ok (pr.1, { asset := la.asset, amount := la.amount, premium := premium, rsv := rsv, borrow := la.borrow } :: pr.2)

/-- Mirror of the second loop of flash_loan: for a leg with borrow = false,
pull amount + premium of the underlying from the receiver into the s-token
contract and forward the premium to the treasury; for borrow = true run
do_borrow on behalf of the caller (methods/borrow.rs is not under src, so
the borrow path is an abstract function). -/
def flashLoanLeg2 (doBorrowFn : ChainState → Nat → Nat → Int → Except Error ChainState) (who receiver treasury : Nat) (st : ChainState) (leg : LoanLeg) : Except Error ChainState :=
  if ¬leg.borrow then do
    let awp ← orErr (checkedI128 (leg.amount + leg.premium)) .MathOverflowError
    let st1 ← tokenTransfer st leg.asset receiver leg.rsv.sTokenAddress awp
    sTokenTransferUnderlyingTo st1 leg.rsv.sTokenAddress leg.asset treasury leg.premium
  else doBorrowFn st who leg.asset leg.amount

def flashLoanPhase2 (doBorrowFn : ChainState → Nat → Nat → Int → Except Error ChainState) (who receiver treasury : Nat) : ChainState → List LoanLeg → Except Error ChainState
  | st, [] => .ok st
  | st, leg :: rest => do
    let st' ← flashLoanLeg2 doBorrowFn who receiver treasury st leg
    flashLoanPhase2 doBorrowFn who receiver treasury st' rest

/-- Mirror of flash_loan: require_auth on the caller is ambient, then
require_not_paused (pause flag only), the fee from the stored basis points,
a nonempty asset list, the first pass, the receiver callback (its boolean
result is an input), and the second pass.  The returned list holds the
premiums of the legs in order. -/
def flash_loan (doBorrowFn : ChainState → Nat → Nat → Int → Except Error ChainState) (st0 : ChainState) (who receiver treasury : Nat) (reservesMap : Nat → Option ReserveInfo) (feeBps : Int) (legs : List FlashLoanAsset) (receiverOk : Bool) : Except Error (ChainState × List Int) := do
  let _ ← require_not_paused st0
  let fee ← orErr (FixedI128.from_percentage feeBps) .MathOverflowError
  if legs.length = 0 then .error .MustBePositive
  else do
    let pr ← flashLoanPhase1 reservesMap receiver fee st0 legs
    if ¬receiverOk then .error .FlashLoanReceiverError
    else do
      let st2 ← flashLoanPhase2 doBorrowFn who receiver treasury pr.1 pr.2
      .ok (st2, pr.2.map (fun leg => leg.premium))

/-! ## Borrow and withdraw admission (claim C8)

The current-tree borrow entry point and its validation
(methods/borrow.rs, methods/utils/validation.rs) are not under src; the
post-state check is modelled from the spec. -/

/-- A position snapshot in base-asset units, as calc_account_data returns
it. -/
structure PositionSnapshot where
  discountedCollateral : Int
  debt : Int
  npv : Int

/-- Modelled from the spec (section 4.7 Borrow: the post-check requires the
user good AND npv at least initial_health times discounted_collateral over
10000; section 8 states the same bound as the post-borrow and post-withdraw
invariant; the test should_fail_when_lt_initial_health shows the violation
surfacing as error #301, CollateralNotCoverNewBorrow): the bound is
computed with the fixed-point from_percentage and mul_int of the source
arithmetic. -/
def validate_position_after (ihBps : Int) (post : PositionSnapshot) : Except Error Unit := do
  let ih ← orErr (FixedI128.from_percentage ihBps) .ValidateBorrowMathError
  let bound ← orErr (ih.mul_int post.discountedCollateral) .ValidateBorrowMathError
  if 0 < post.npv ∧ bound ≤ post.npv then .ok () else .error .CollateralNotCoverNewBorrow

/-- Modelled from the spec: a borrow of a base-asset amount moves the
position from pre to the prospective post state (debt and npv shift by the
borrowed base amount) and succeeds only when validate_position_after
accepts the post state. -/
def borrow_model (ihBps : Int) (pre : PositionSnapshot) (amountBase : Int) : Except Error PositionSnapshot := do
  let _ ← validate_position_after ihBps
    { discountedCollateral := pre.discountedCollateral, debt := pre.debt + amountBase, npv := pre.npv - amountBase }
  .ok { discountedCollateral := pre.discountedCollateral, debt := pre.debt + amountBase, npv := pre.npv - amountBase }

/-- Modelled from the spec: a withdrawal removing a discounted base amount
of collateral succeeds only when validate_position_after accepts the post
state (section 8 invariant). -/
def withdraw_model (ihBps : Int) (pre : PositionSnapshot) (discountedDelta : Int) : Except Error PositionSnapshot := do
  let _ ← validate_position_after ihBps
    { discountedCollateral := pre.discountedCollateral - discountedDelta, debt := pre.debt, npv := pre.npv - discountedDelta }
  .ok { discountedCollateral := pre.discountedCollateral - discountedDelta, debt := pre.debt, npv := pre.npv - discountedDelta }

/-! ## Permission revocation (methods/revoke_permission.rs) -/

/-- Mirror of pool_interface Permission (types/permission.rs is not under
src): the Permission variant guards the permission table itself; the other
admin permissions are abstracted by an index. -/
inductive Permission where
  | permission
  | other (n : Nat)
deriving DecidableEq

/-- The permission table: PermissionOwners(permission), a sorted
duplicate-free soroban Vec of addresses per permission. -/
def PermTable := Permission → List Nat

/-- Modelled from the spec (section 6: each admin entry point is gated on an
explicit permission from the permission table; validation module not under
src): the caller must hold the given permission, NoPermissioned
otherwise. -/
def require_permission (tbl : PermTable) (who : Nat) (perm : Permission) : Except Error Unit :=
  if who ∈ tbl perm then .ok () else .error .NoPermissioned

/-- Mirror of revoke_permission: the caller must hold
Permission::Permission; revoking Permission::Permission is refused with
NoPermissioned when its owners list has exactly one element; otherwise the
owner is removed when binary_search finds it (the owners Vec is kept sorted
and duplicate-free, so the search succeeds exactly on membership), and the
table is written back; an absent owner leaves the table untouched. -/
def revoke_permission (tbl : PermTable) (who owner : Nat) (perm : Permission) : Except Error PermTable := do
  let _ ← require_permission tbl who .permission
  if perm = .permission ∧ (tbl perm).length = 1 then .error .NoPermissioned
  else if owner ∈ tbl perm then .ok (fun p => if p = perm then (tbl perm).erase owner else tbl p)
  else .ok tbl

/-- A sequence of revoke_permission calls: a call that errors aborts its own
transaction and leaves the table unchanged. -/
def applyRevocations (tbl : PermTable) : List (Nat × Nat × Permission) → PermTable
  | [] => tbl
  | c :: rest =>
    applyRevocations
      (match revoke_permission tbl c.1 c.2.1 c.2.2 with
       | .ok t => t
       | .error _ => tbl) rest

/-! ## Deposit mint path (LendingPool::do_deposit, pool/src/lib.rs) -/

/-- Mirror of the mint path of do_deposit: a zero deposit returns without
effect, otherwise the s-token amount is the deposit divided by the
collateral coefficient (recip_mul_int), the underlying is transferred in,
and SToken::mint runs do_mint, which panics on a zero amount. -/
def do_deposit (st : ChainState) (sToken asset who : Nat) (collat_coeff : FixedI128) (amount : Int) : Except Error (ChainState × Bool) :=
  if amount = 0 then .ok (st, false)
  else do
    let amount_to_mint ← orErr (collat_coeff.recip_mul_int amount) .MathOverflowError
    let isFirst := st.tokenBalance sToken who = 0
    let st1 ← tokenTransfer st asset who sToken amount
    let st2 ← sTokenDoMint st1 sToken who amount_to_mint
    .ok (st2, isFirst)

/-! ## Helpers for reasoning about Except chains -/

theorem excBindError {α β : Type} {x : Except Error α} {f : α → Except Error β} {e : Error}
    (h : (x >>= f) = .error e) : x = .error e ∨ ∃ a, x = .ok a ∧ f a = .error e := by
  cases x with
  | error e' =>
    left
    have : e' = e := by simpa [Bind.bind, Except.bind] using h
    rw [this]
  | ok a =>
    right
    exact ⟨a, rfl, by simpa [Bind.bind, Except.bind] using h⟩

theorem excBindOk {α β : Type} {x : Except Error α} {f : α → Except Error β} {b : β}
    (h : (x >>= f) = .ok b) : ∃ a, x = .ok a ∧ f a = .ok b := by
  cases x with
  | error e' => simp [Bind.bind, Except.bind] at h
  | ok a => exact ⟨a, rfl, by simpa [Bind.bind, Except.bind] using h⟩

/-- Membership statement for in-range i128 values. -/
def inI128 (x : Int) : Prop := I128MIN ≤ x ∧ x ≤ I128MAX

instance (x : Int) : Decidable (inI128 x) := by
  unfold inI128
  infer_instance

theorem checkedI128_eq_some {x : Int} (h : inI128 x) : checkedI128 x = some x := by
  unfold checkedI128
  exact if_pos ⟨h.1, h.2⟩

/-! ## Claim C5: the collateral coefficient -/

/-- Counterexample to claim C5: with lender_ar = 1.5, supply 2, underlying 0
and debt supply 1, the code yields 0.5 in fixed point (inner 500000000)
because the product lender_ar times debt supply is truncated to the integer
1 before the division, while the single-rounding rational of the claim is
0.75 (inner 750000000). -/
theorem c5_single_rounding_cex :
    get_collat_coeff ⟨1500000000⟩ 2 0 1 = .ok ⟨500000000⟩ ∧
    collatCoeffSingleRounding ⟨1500000000⟩ 2 0 1 = 750000000 ∧
    (500000000 : Int) ≠ 750000000 :=
  ⟨rfl, rfl, by decide⟩

/-- Claim C5, amended: for a nonzero s-token supply and inputs whose
intermediate values stay inside i128, get_collat_coeff returns the two-step
formula, in which the product lender_ar times debt_token_total_supply is
truncated toward zero to an integer before the division by the s-token
supply; when the supply is zero the result is exactly 1 regardless of the
other inputs; and every failure surfaces as CollateralCoeffMathError. -/
theorem c5_collat_coeff_two_step (ar : FixedI128) (ss ub ds : Int)
    (hss : ss ≠ 0)
    (h1 : inI128 (ar.inner * ds))
    (h2 : inI128 (ub + (ar.inner * ds).tdiv FixedI128.DENOMINATOR))
    (h3 : inI128 ((ub + (ar.inner * ds).tdiv FixedI128.DENOMINATOR) * FixedI128.DENOMINATOR)) :
    get_collat_coeff ar ss ub ds = .ok ⟨collatCoeffTwoStep ar ss ub ds⟩ ∧
    get_collat_coeff ar 0 ub ds = .ok FixedI128.ONE ∧
    (∀ ss' e, get_collat_coeff ar ss' ub ds = .error e → e = .CollateralCoeffMathError) := by
  refine ⟨?_, by simp [get_collat_coeff], ?_⟩
  · unfold get_collat_coeff
    rw [if_neg hss]
    have hm : FixedI128.mul_int ar ds = some ((ar.inner * ds).tdiv FixedI128.DENOMINATOR) := by
      unfold FixedI128.mul_int
      rw [checkedI128_eq_some h1]
      rfl
    have hs : checkedI128 (ub + (ar.inner * ds).tdiv FixedI128.DENOMINATOR)
        = some (ub + (ar.inner * ds).tdiv FixedI128.DENOMINATOR) := checkedI128_eq_some h2
    have hr : FixedI128.from_rational (ub + (ar.inner * ds).tdiv FixedI128.DENOMINATOR) ss
        = some ⟨collatCoeffTwoStep ar ss ub ds⟩ := by
      unfold FixedI128.from_rational
      rw [if_neg hss, checkedI128_eq_some h3]
      rfl
    simp [hm, hs, hr, orErr, Bind.bind, Except.bind]
  · intro ss' e h
    unfold get_collat_coeff at h
    by_cases hz : ss' = 0
    · rw [if_pos hz] at h
      exact absurd h (by simp)
    · rw [if_neg hz] at h
      rcases excBindError h with h | ⟨p, _, h⟩
      · exact orErr_error h
      rcases excBindError h with h | ⟨s, _, h⟩
      · exact orErr_error h
      · exact orErr_error h

/-- Witness for c5_collat_coeff_two_step at the concrete input of the
counterexample. -/
theorem c5_collat_coeff_two_step_witness :
    get_collat_coeff ⟨1500000000⟩ 2 0 1 = .ok ⟨collatCoeffTwoStep ⟨1500000000⟩ 2 0 1⟩ :=
  (c5_collat_coeff_two_step ⟨1500000000⟩ 2 0 1 (by decide) (by decide) (by decide) (by decide)).1

/-! ## Claim C7: the cross-feed median -/

theorem insertUniqueAsc_mem (x a : Int) (l : List Int) :
    a ∈ insertUniqueAsc x l ↔ a = x ∨ a ∈ l := by
  induction l with
  | nil => simp [insertUniqueAsc]
  | cons y ys ih =>
    unfold insertUniqueAsc
    by_cases h1 : x < y
    · rw [if_pos h1]
      simp
    · by_cases h2 : x = y
      · rw [if_neg h1, if_pos h2]
        subst h2
        simp
      · rw [if_neg h1, if_neg h2]
        simp [ih]
        all_goals tauto

theorem insertUniqueAsc_sorted {x : Int} {l : List Int} (h : l.Sorted (· < ·)) :
    (insertUniqueAsc x l).Sorted (· < ·) := by
  induction l with
  | nil => simp [insertUniqueAsc]
  | cons y ys ih =>
    rw [List.sorted_cons] at h
    obtain ⟨hy, hys⟩ := h
    unfold insertUniqueAsc
    by_cases h1 : x < y
    · rw [if_pos h1, List.sorted_cons]
      refine ⟨?_, List.sorted_cons.mpr ⟨hy, hys⟩⟩
      intro b hb
      rcases List.mem_cons.mp hb with hb | hb
      · exact hb ▸ h1
      · exact lt_trans h1 (hy b hb)
    by_cases h2 : x = y
    · rw [if_neg h1, if_pos h2]
      exact List.sorted_cons.mpr ⟨hy, hys⟩
    · rw [if_neg h1, if_neg h2, List.sorted_cons]
      have hyx : y < x := lt_of_le_of_ne (not_lt.mp h1) (fun hxy => h2 hxy.symm)
      refine ⟨?_, ih hys⟩
      intro b hb
      rcases (insertUniqueAsc_mem x b ys).mp hb with hb | hb
      · exact hb ▸ hyx
      · exact hy b hb

theorem foldl_insertUnique_sorted (l acc : List Int) (h : acc.Sorted (· < ·)) :
    (l.foldl (fun a x => insertUniqueAsc x a) acc).Sorted (· < ·) := by
  induction l generalizing acc with
  | nil => simpa using h
  | cons x xs ih => exact ih (insertUniqueAsc x acc) (insertUniqueAsc_sorted h)

theorem foldl_insertUnique_mem (l acc : List Int) (a : Int) :
    a ∈ l.foldl (fun a x => insertUniqueAsc x a) acc ↔ a ∈ acc ∨ a ∈ l := by
  induction l generalizing acc with
  | nil => simp
  | cons x xs ih =>
    simp only [List.foldl_cons, ih, insertUniqueAsc_mem, List.mem_cons]
    tauto

theorem mapKeysAsc_sorted (l : List Int) : (mapKeysAsc l).Sorted (· < ·) :=
  foldl_insertUnique_sorted l [] (by simp)

theorem mapKeysAsc_mem (l : List Int) (a : Int) : a ∈ mapKeysAsc l ↔ a ∈ l := by
  unfold mapKeysAsc
  rw [foldl_insertUnique_mem]
  simp

theorem insertAsc_perm (x : Int) (l : List Int) : List.Perm (insertAsc x l) (x :: l) := by
  induction l with
  | nil => rfl
  | cons y ys ih =>
    unfold insertAsc
    by_cases h : x ≤ y
    · rw [if_pos h]
    · rw [if_neg h]
      exact (ih.cons y).trans (List.Perm.swap x y ys)

theorem sortAsc_perm (l : List Int) : List.Perm (sortAsc l) l := by
  induction l with
  | nil => rfl
  | cons x xs ih => exact (insertAsc_perm x (sortAsc xs)).trans (ih.cons x)

theorem insertAsc_sorted {x : Int} {l : List Int} (h : l.Sorted (· ≤ ·)) :
    (insertAsc x l).Sorted (· ≤ ·) := by
  induction l with
  | nil => simp [insertAsc]
  | cons y ys ih =>
    rw [List.sorted_cons] at h
    obtain ⟨hy, hys⟩ := h
    unfold insertAsc
    by_cases h1 : x ≤ y
    · rw [if_pos h1, List.sorted_cons]
      refine ⟨?_, List.sorted_cons.mpr ⟨hy, hys⟩⟩
      intro b hb
      rcases List.mem_cons.mp hb with hb | hb
      · exact hb ▸ h1
      · exact le_trans h1 (hy b hb)
    · rw [if_neg h1, List.sorted_cons]
      refine ⟨?_, ih hys⟩
      intro b hb
      rcases List.mem_cons.mp ((insertAsc_perm x ys).mem_iff.mp hb) with hb | hb
      · exact hb ▸ le_of_lt (not_le.mp h1)
      · exact hy b hb

theorem sortAsc_sorted (l : List Int) : (sortAsc l).Sorted (· ≤ ·) := by
  induction l with
  | nil => simp [sortAsc]
  | cons x xs ih => exact insertAsc_sorted ih

theorem sorted_lt_ext : ∀ (l1 l2 : List Int), l1.Sorted (· < ·) → l2.Sorted (· < ·) →
    (∀ x, x ∈ l1 ↔ x ∈ l2) → l1 = l2 := by
  intro l1
  induction l1 with
  | nil =>
    intro l2 _ _ hmem
    cases l2 with
    | nil => rfl
    | cons b t2 => exact absurd ((hmem b).mpr (List.mem_cons_self b t2)) (by simp)
  | cons a t1 ih =>
    intro l2 h1 h2 hmem
    cases l2 with
    | nil => exact absurd ((hmem a).mp (List.mem_cons_self a t1)) (by simp)
    | cons b t2 =>
      rw [List.sorted_cons] at h1 h2
      obtain ⟨ha, ht1⟩ := h1
      obtain ⟨hb, ht2⟩ := h2
      have hab : a = b := by
        rcases List.mem_cons.mp ((hmem a).mp (List.mem_cons_self a t1)) with h | h
        · exact h
        · rcases List.mem_cons.mp ((hmem b).mpr (List.mem_cons_self b t2)) with h' | h'
          · exact h'.symm
          · exact absurd (lt_trans (hb a h) (ha b h')) (lt_irrefl b)
      subst hab
      have htails : ∀ x, x ∈ t1 ↔ x ∈ t2 := by
        intro x
        constructor
        · intro hx
          rcases List.mem_cons.mp ((hmem x).mp (List.mem_cons.mpr (Or.inr hx))) with h | h
          · exact absurd (h ▸ ha x hx) (lt_irrefl a)
          · exact h
        · intro hx
          rcases List.mem_cons.mp ((hmem x).mpr (List.mem_cons.mpr (Or.inr hx))) with h | h
          · exact absurd (h ▸ hb x hx) (lt_irrefl a)
          · exact h
      rw [ih t2 ht1 ht2 htails]

theorem sorted_le_nodup_sorted_lt {l : List Int} (hs : l.Sorted (· ≤ ·)) (hd : l.Nodup) :
    l.Sorted (· < ·) :=
  (List.Pairwise.and hs hd).imp (fun h => lt_of_le_of_ne h.1 h.2)

/-- The map key list of the twap values equals the duplicate-free ascending
sort of the values. -/
theorem mapKeysAsc_eq_sortAsc_dedup (l : List Int) :
    mapKeysAsc l = sortAsc l.dedup := by
  apply sorted_lt_ext
  · exact mapKeysAsc_sorted l
  · exact sorted_le_nodup_sorted_lt (sortAsc_sorted l.dedup)
      ((sortAsc_perm l.dedup).nodup_iff.mpr l.nodup_dedup)
  · intro x
    rw [mapKeysAsc_mem, (sortAsc_perm l.dedup).mem_iff, List.mem_dedup]

/-- The source median agrees with the spec-worded median of a sorted list:
for a nonempty list of values in a safe range the checked addition cannot
fail, the unchecked accesses are in bounds and both produce the middle
element (odd length) or the truncated mean of the two middle elements
(even length). -/
theorem median_eq_spec (l : List Int) (hne : l ≠ [])
    (hb : ∀ x ∈ l, 0 ≤ x ∧ x ≤ 2 ^ 126 - 1) :
    ∃ m, medianOfSortedSpec l = some m ∧ median l = .ok m := by
  match l with
  | [] => exact absurd rfl hne
  | [p] => exact ⟨p, by simp [medianOfSortedSpec], by rfl⟩
  | p :: q :: r =>
    have hidx : (p :: q :: r).length / 2 < (p :: q :: r).length :=
      Nat.div_lt_self (by simp) (by norm_num)
    have hidx1 : (p :: q :: r).length / 2 - 1 < (p :: q :: r).length :=
      lt_of_le_of_lt (Nat.sub_le _ _) hidx
    cases hp2 : (p :: q :: r).get? ((p :: q :: r).length / 2) with
    | none =>
      rw [List.get?_eq_none] at hp2
      omega
    | some a2 =>
      cases hp1 : (p :: q :: r).get? ((p :: q :: r).length / 2 - 1) with
      | none =>
        rw [List.get?_eq_none] at hp1
        omega
      | some a1 =>
        have ha1 := hb a1 (List.get?_mem hp1)
        have ha2 := hb a2 (List.get?_mem hp2)
        rcases Nat.mod_two_eq_zero_or_one ((p :: q :: r).length) with hpar | hpar
        · have hsum : inI128 (a1 + a2) := by
            unfold inI128 I128MIN I128MAX
            have e1 : (2 : Int) ^ 126 - 1 = 85070591730234615865843651857942052863 := by norm_num
            have e2 : (2 : Int) ^ 127 - 1 = 170141183460469231731687303715884105727 := by norm_num
            have e3 : -(2 : Int) ^ 127 = -170141183460469231731687303715884105728 := by norm_num
            rw [e2, e3]
            rw [e1] at ha1 ha2
            omega
          have hck := checkedI128_eq_some hsum
          have hp1' := hp1
          have hp2' := hp2
          simp only [List.get?_eq_getElem?, List.length_cons] at hp1' hp2'
          have hpar' : (r.length + 1 + 1) % 2 = 0 := by simpa using hpar
          refine ⟨(a1 + a2).tdiv 2, ?_, ?_⟩
          · unfold medianOfSortedSpec
            rw [if_neg (by simp), if_neg (by omega), hp1, hp2]
          · simp [median, hpar', hp1', hp2', hck]
        · have hp2' := hp2
          simp only [List.get?_eq_getElem?, List.length_cons] at hp2'
          have hpar' : (r.length + 1 + 1) % 2 = 1 := by simpa using hpar
          refine ⟨a2, ?_, ?_⟩
          · unfold medianOfSortedSpec
            rw [if_neg (by simp), if_pos hpar, hp2]
          · have hne2 : ¬((r.length + 1 + 1) % 2 = 0) := by omega
            simp [median, hne2, hp2']

/-- Counterexample to claim C7: with per-feed TWAP values 1, 1 and 5 the
multiset median of the claim is 1, but the source collapses the duplicate
in the value-keyed map and computes the even-count median of the distinct
values 1 and 5, returning 3. -/
theorem c7_duplicate_twaps_cex :
    crossFeedPrice [1, 1, 5] = .ok 3 ∧
    multisetMedianSpec [1, 1, 5] = some 1 ∧
    (3 : Int) ≠ 1 :=
  ⟨rfl, rfl, by decide⟩

/-- Claim C7, amended: the cross-feed price is the median of the DISTINCT
per-feed TWAP values (the value-keyed map collapses duplicates before the
median): for every nonempty value list in a safe range the result is the
spec median of the deduplicated list; when the values are pairwise
distinct, that is exactly the multiset median of the claim. -/
theorem c7_median_of_distinct_twaps (twaps : List Int) (hne : twaps ≠ [])
    (hb : ∀ x ∈ twaps, 0 ≤ x ∧ x ≤ 2 ^ 126 - 1) :
    (∃ m, multisetMedianSpec twaps.dedup = some m ∧ crossFeedPrice twaps = .ok m) ∧
    (twaps.Nodup → multisetMedianSpec twaps.dedup = multisetMedianSpec twaps) := by
  constructor
  · have hkeys : mapKeysAsc twaps = sortAsc twaps.dedup := mapKeysAsc_eq_sortAsc_dedup twaps
    have hkne : mapKeysAsc twaps ≠ [] := by
      intro h0
      match twaps, hne with
      | t :: ts, _ =>
        have : t ∈ mapKeysAsc (t :: ts) := (mapKeysAsc_mem _ t).mpr (List.mem_cons_self t ts)
        rw [h0] at this
        exact absurd this (by simp)
    have hkb : ∀ x ∈ mapKeysAsc twaps, 0 ≤ x ∧ x ≤ 2 ^ 126 - 1 := by
      intro x hx
      exact hb x ((mapKeysAsc_mem twaps x).mp hx)
    obtain ⟨m, hspec, hmed⟩ := median_eq_spec (mapKeysAsc twaps) hkne hkb
    refine ⟨m, ?_, hmed⟩
    unfold multisetMedianSpec
    rw [← hkeys]
    exact hspec
  · intro hd
    rw [List.dedup_eq_self.mpr hd]

/-- Witness for c7_median_of_distinct_twaps on the distinct values 5, 1, 3:
the cross-feed price is the multiset median 3. -/
theorem c7_median_of_distinct_twaps_witness :
    multisetMedianSpec ([5, 1, 3] : List Int).dedup = some 3 ∧ crossFeedPrice [5, 1, 3] = .ok 3 := by
  rcases (c7_median_of_distinct_twaps [5, 1, 3] (by decide) (by decide)).1 with ⟨m, h1, h2⟩
  have h3 : multisetMedianSpec ([5, 1, 3] : List Int).dedup = some 3 := rfl
  rw [h3] at h1
  injection h1 with h4
  rw [← h4] at h2
  exact ⟨h3, h2⟩

/-! ## Concrete liquidation scenarios

Base asset is address 0 and every leg is denominated in it, so the price
conversions run through the identity short-circuit of the source.  Address
100 is the borrower, 200 the liquidator; 11, 12 are s-token contracts, 13 a
debt-token contract; the reserves are funded so that token transfers cannot
trap. -/

def balC1 (t u : Nat) : Int :=
  if t = 11 ∧ u = 100 then 250
  else if t = 12 ∧ u = 100 then 100
  else if t = 13 ∧ u = 100 then 1100
  else if t = 0 ∧ u = 200 then 1000000
  else if t = 0 ∧ u = 11 then 1000000
  else if t = 0 ∧ u = 12 then 1000000
  else 0

def supC1 (t : Nat) : Int :=
  if t = 11 then 10000 else if t = 12 then 10000 else if t = 13 then 1100 else 0

def stC1 : ChainState :=
  { paused := false, unpausedAt := 0, gracePeriodSecs := 0, now := 0
  , tokenBalance := balC1, totalSupply := supC1
  , mirrorBalance := fun _ _ => 0, mirrorSupply := supC1
  , stokenUnderlying := fun _ => 1000000
  , collateralBit := fun _ _ => false, borrowBit := fun _ _ => false }

/-- First collateral leg of the C1 scenario: discount 50 percent, balance
250, coefficient 1. -/
def leg1C1 : LiquidationAsset :=
  { asset := 0, reserveId := 1, sTokenAddress := 11, debtTokenAddress := 13
  , discountBps := 5000, compBalance := 250, coeff := 1000000000
  , debtTokenBalance := 0, compoundedDebt := 0, debtCoeff := 0 }

/-- Second collateral leg of the C1 scenario. -/
def leg2C1 : LiquidationAsset :=
  { leg1C1 with sTokenAddress := 12, reserveId := 2, compBalance := 100 }

/-- Debt leg of the C1 scenario. -/
def dlegC1 : LiquidationAsset :=
  { asset := 0, reserveId := 3, sTokenAddress := 11, debtTokenAddress := 13
  , discountBps := 0, compBalance := 0, coeff := 0
  , debtTokenBalance := 1100, compoundedDebt := 1100, debtCoeff := 1000000000 }

/-- Account data of the C1 scenario: collateral 1000, debt 1100, npv -100. -/
def adC1 : AccountData :=
  { discountedCollateral := 1000, debt := 1100, npv := -100
  , liquidationCollat := some [leg1C1, leg2C1], liquidationDebt := some [dlegC1] }

/-- Loop parameters exactly as liquidate computes them for the C1 scenario
(initial health 10 percent, bonus 10 percent). -/
def paramsC1 : LiqParams :=
  { initialHealth := ⟨100000000⟩, hundred := ⟨1000000000⟩
  , liqBonus := ⟨100000000⟩, totalDebtLiqBonus := ⟨900000000⟩ }

/-- Initial collateral-loop accumulator of the C1 scenario. -/
def accC1 : CollatAcc :=
  { totalDebtAfter := 1100, totalCollatDiscAfter := 1000, totalDebtToCover := 0
  , npvLast := -100, st := stC1, steps := [] }

/-- Extraction of the value of a successful Except computation. -/
def forceOk (x : Except Error α) (dflt : α) : α :=
  match x with
  | .ok a => a
  | .error _ => dflt

/-- The accumulator after the first collateral leg of the C1 scenario; its
npvLast evaluates to exactly 0. -/
def accC1step : CollatAcc :=
  forceOk (collatStep idPriceOps paramsC1 false 200 100 accC1 leg1C1) accC1

def balC2 (t u : Nat) : Int :=
  if t = 11 ∧ u = 100 then 1000
  else if t = 13 ∧ u = 100 then 1500
  else if t = 0 ∧ u = 200 then 1000000
  else if t = 0 ∧ u = 11 then 1000000
  else 0

def supC2 (t : Nat) : Int :=
  if t = 11 then 10000 else if t = 13 then 1500 else 0

def stC2 : ChainState :=
  { stC1 with tokenBalance := balC2, totalSupply := supC2, mirrorSupply := supC2 }

/-- Single collateral leg of the C2 scenario: discount 100 percent, balance
1000. -/
def legC2 : LiquidationAsset :=
  { asset := 0, reserveId := 1, sTokenAddress := 11, debtTokenAddress := 13
  , discountBps := 10000, compBalance := 1000, coeff := 1000000000
  , debtTokenBalance := 0, compoundedDebt := 0, debtCoeff := 0 }

/-- Debt leg of the C2 scenario. -/
def dlegC2 : LiquidationAsset :=
  { asset := 0, reserveId := 3, sTokenAddress := 11, debtTokenAddress := 13
  , discountBps := 0, compBalance := 0, coeff := 0
  , debtTokenBalance := 1500, compoundedDebt := 1500, debtCoeff := 1000000000 }

/-- Account data of the C2 scenario: collateral 1000, debt 1500, npv -500. -/
def adC2 : AccountData :=
  { discountedCollateral := 1000, debt := 1500, npv := -500
  , liquidationCollat := some [legC2], liquidationDebt := some [dlegC2] }

/-! ## Claim C1: the collateral-loop break condition -/

/-- Claim C1, amended: the collateral loop stops after a leg exactly when
the running npv after that leg is STRICTLY positive (npv_after.is_positive);
when the running npv equals zero the loop does not break and the next
collateral leg is processed. -/
theorem c1_break_requires_strictly_positive_npv
    (conv : PriceOps) (P : LiqParams) (rcv : Bool) (lq who : Nat)
    (leg : LiquidationAsset) (rest : List LiquidationAsset) (acc acc' : CollatAcc)
    (hstep : collatStep conv P rcv lq who acc leg = .ok acc') :
    (0 < acc'.npvLast → collatLoop conv P rcv lq who (leg :: rest) acc = .ok acc') ∧
    (acc'.npvLast = 0 →
      collatLoop conv P rcv lq who (leg :: rest) acc = collatLoop conv P rcv lq who rest acc') := by
  constructor
  · intro h
    simp [collatLoop, hstep, h]
  · intro h
    simp [collatLoop, hstep, h]

/-- Witness for c1_break_requires_strictly_positive_npv: in the concrete C1
scenario the first leg ends with running npv exactly 0 and the loop
continues with the remaining legs. -/
theorem c1_break_requires_strictly_positive_npv_witness :
    collatLoop idPriceOps paramsC1 false 200 100 [leg1C1, leg2C1] accC1
      = collatLoop idPriceOps paramsC1 false 200 100 [leg2C1] accC1step :=
  (c1_break_requires_strictly_positive_npv idPriceOps paramsC1 false 200 100
    leg1C1 [leg2C1] accC1 accC1step rfl).2 rfl

/-- Counterexample to claim C1 as stated: in the C1 scenario the running
npv after the first collateral leg is exactly 0, yet liquidate processes
the second collateral leg as well (two steps recorded, the second seizing
100). -/
theorem c1_zero_npv_processes_next_leg_cex :
    (liquidate idPriceOps stC1 200 100 1000 adC1 false).map
      (fun r => (r.collatSteps.map (fun s => (s.seized, s.npvAfter)), r.collatSteps.length))
      = .ok ([(250, 0), (100, 40)], 2) := rfl

/-! ## Claim C2: NotEnoughCollateral -/

/-- Counterexample to claim C2 as stated: in the C2 scenario the single
collateral leg is seized in full (1000, its entire comp_balance), the
accumulated debt-to-cover is still 500 when the collateral legs are
exhausted, the borrower keeps a debt-token balance of 1000, and liquidate
returns success instead of the NotEnoughCollateral error. -/
theorem c2_collateral_exhausted_returns_ok_cex :
    (liquidate idPriceOps stC2 200 100 0 adC2 false).map
      (fun r => (r.collatSteps.map (fun s => (s.seized, s.npvAfter)),
        r.debtToCoverAfterCollat, r.state.mirrorBalance 13 100,
        r.debtSteps.map (fun s => s.fully)))
      = .ok ([(1000, -1000)], 500, 1000, [false]) ∧
    legC2.compBalance = 1000 :=
  ⟨rfl, rfl⟩

/-! ## Error analysis of the embedded operations

These lemmas enumerate the errors each embedded function can surface; the
claims about errors that can never occur (NotEnoughCollateral, GracePeriod)
and about the GoodPosition gate consume them. -/

theorem orErrBindError {α β : Type} {o : Option α} {e0 e : Error} {f : α → Except Error β}
    (h : (orErr o e0 >>= f) = .error e) : e = e0 ∨ ∃ a, o = some a ∧ f a = .error e := by
  rcases excBindError h with h | ⟨a, ha, h⟩
  · exact Or.inl (orErr_error h)
  · exact Or.inr ⟨a, orErr_ok ha, h⟩

theorem tokenTransfer_error {st : ChainState} {t f g : Nat} {a : Int} {e : Error}
    (h : tokenTransfer st t f g a = .error e) :
    e = .NegativeAmount ∨ e = .InsufficientBalance := by
  unfold tokenTransfer at h
  split at h
  · exact Or.inl (by injection h with h; exact h.symm)
  · split at h
    · exact Or.inr (by injection h with h; exact h.symm)
    · exact absurd h (by simp)

theorem spendBalance_error {st : ChainState} {t u : Nat} {a : Int} {e : Error}
    (h : spendBalance st t u a = .error e) : e = .InsufficientBalance := by
  unfold spendBalance at h
  split at h
  · injection h with h
    exact h.symm
  · exact absurd h (by simp)

theorem addTotalSupply_error {st : ChainState} {t : Nat} {a : Int} {e : Error}
    (h : addTotalSupply st t a = .error e) : e = .UnwrapFailure := by
  unfold addTotalSupply at h
  split at h
  · exact absurd h (by simp)
  · injection h with h
    exact h.symm

theorem addStokenUnderlyingBalance_error {st : ChainState} {t : Nat} {a : Int} {e : Error}
    (h : addStokenUnderlyingBalance st t a = .error e) : e = .MathOverflowError := by
  unfold addStokenUnderlyingBalance at h
  split at h
  · exact absurd h (by simp)
  · injection h with h
    exact h.symm

theorem sTokenDoBurn_error {st : ChainState} {s ua f : Nat} {ab aw : Int} {g : Nat} {e : Error}
    (h : sTokenDoBurn st s ua f ab aw g = .error e) :
    e = .InvalidBurnAmount ∨ e = .InsufficientBalance ∨ e = .UnwrapFailure ∨ e = .NegativeAmount := by
  unfold sTokenDoBurn at h
  split at h
  · exact Or.inl (by injection h with h; exact h.symm)
  · rcases excBindError h with h | ⟨st1, _, h⟩
    · exact Or.inr (Or.inl (spendBalance_error h))
    rcases orErrBindError h with rfl | ⟨n, _, h⟩
    · exact Or.inr (Or.inr (Or.inl rfl))
    rcases excBindError h with h | ⟨st2, _, h⟩
    · exact Or.inr (Or.inr (Or.inl (addTotalSupply_error h)))
    · rcases tokenTransfer_error h with h | h
      · exact Or.inr (Or.inr (Or.inr h))
      · exact Or.inr (Or.inl h)

theorem sTokenTransferOnLiquidation_error {st : ChainState} {s f g : Nat} {a : Int} {e : Error}
    (h : sTokenTransferOnLiquidation st s f g a = .error e) : e = .InsufficientBalance := by
  unfold sTokenTransferOnLiquidation at h
  rcases excBindError h with h | ⟨st1, _, h⟩
  · exact spendBalance_error h
  · exact absurd h (by simp)

theorem sTokenTransferUnderlyingTo_error {st : ChainState} {s ua g : Nat} {a : Int} {e : Error}
    (h : sTokenTransferUnderlyingTo st s ua g a = .error e) :
    e = .NegativeAmount ∨ e = .InsufficientBalance := by
  unfold sTokenTransferUnderlyingTo at h
  split at h
  · exact Or.inl (by injection h with h; exact h.symm)
  · exact tokenTransfer_error h

theorem debtTokenBurn_error {st : ChainState} {d f : Nat} {a : Int} {e : Error}
    (h : debtTokenBurn st d f a = .error e) :
    e = .InsufficientBalance ∨ e = .UnwrapFailure := by
  unfold debtTokenBurn at h
  rcases excBindError h with h | ⟨st1, _, h⟩
  · exact Or.inl (spendBalance_error h)
  rcases orErrBindError h with rfl | ⟨n, _, h⟩
  · exact Or.inr rfl
  · exact Or.inr (addTotalSupply_error h)

/-- The errors a collateral-leg iteration can surface by itself (price
conversion failures are listed separately). -/
def stepErrs : List Error :=
  [.CalcAccountDataMathError, .UnwrapFailure, .LiquidateMathError, .MathOverflowError,
   .MustNotHaveDebt, .InsufficientBalance, .InvalidBurnAmount, .NegativeAmount]

theorem collatStepBranch_error {rcv : Bool} {lq who : Nat} {st : ChainState}
    {collat : LiquidationAsset} {sup llp lmax : Int} {e : Error}
    (h : collatStepBranch rcv lq who st collat sup llp lmax = .error e) :
    e = .MustNotHaveDebt ∨ e = .MathOverflowError ∨ e = .InsufficientBalance ∨
      e = .LiquidateMathError ∨ e = .InvalidBurnAmount ∨ e = .NegativeAmount ∨
      e = .UnwrapFailure := by
  unfold collatStepBranch at h
  split at h
  · split at h
    · injection h with h
      exact Or.inl h.symm
    · rcases orErrBindError h with rfl | ⟨aft, _, h⟩
      · exact Or.inr (Or.inl rfl)
      rcases excBindError h with h | ⟨stA, _, h⟩
      · exact Or.inr (Or.inr (Or.inl (sTokenTransferOnLiquidation_error h)))
      · exact absurd h (by simp)
  · rcases orErrBindError h with rfl | ⟨ats, _, h⟩
    · exact Or.inr (Or.inr (Or.inr (Or.inl rfl)))
    rcases orErrBindError h with rfl | ⟨sup', _, h⟩
    · exact Or.inr (Or.inl rfl)
    rcases excBindError h with h | ⟨stA, _, h⟩
    · rcases sTokenDoBurn_error h with hh | hh | hh | hh
      · exact Or.inr (Or.inr (Or.inr (Or.inr (Or.inl hh))))
      · exact Or.inr (Or.inr (Or.inl hh))
      · exact Or.inr (Or.inr (Or.inr (Or.inr (Or.inr (Or.inr hh)))))
      · exact Or.inr (Or.inr (Or.inr (Or.inr (Or.inr (Or.inl hh)))))
    rcases excBindError h with h | ⟨stB, _, h⟩
    · exact Or.inr (Or.inl (addStokenUnderlyingBalance_error h))
    · exact absurd h (by simp)

theorem collatStep_error {conv : PriceOps} {P : LiqParams} {rcv : Bool} {lq who : Nat}
    {acc : CollatAcc} {leg : LiquidationAsset} {e : Error}
    (h : collatStep conv P rcv lq who acc leg = .error e) :
    e ∈ stepErrs ∨ (∃ a x, conv.toBase a x = .error e) ∨ (∃ a x, conv.fromBase a x = .error e) := by
  unfold collatStep at h
  rcases orErrBindError h with rfl | ⟨discount, _, h⟩
  · exact Or.inl (by decide)
  rcases orErrBindError h with rfl | ⟨hsub, _, h⟩
  · exact Or.inl (by decide)
  rcases orErrBindError h with rfl | ⟨m, _, h⟩
  · exact Or.inl (by decide)
  rcases orErrBindError h with rfl | ⟨scb, _, h⟩
  · exact Or.inl (by decide)
  rcases orErrBindError h with rfl | ⟨sdl, _, h⟩
  · exact Or.inl (by decide)
  rcases orErrBindError h with rfl | ⟨s1, _, h⟩
  · exact Or.inl (by decide)
  rcases orErrBindError h with rfl | ⟨s2, _, h⟩
  · exact Or.inl (by decide)
  rcases orErrBindError h with rfl | ⟨sd, _, h⟩
  · exact Or.inl (by decide)
  rcases excBindError h with h | ⟨lc0, _, h⟩
  · exact Or.inr (Or.inr ⟨_, _, h⟩)
  rcases orErrBindError h with rfl | ⟨lca, _, h⟩
  · exact Or.inl (by decide)
  rcases orErrBindError h with rfl | ⟨tsc, _, h⟩
  · exact Or.inl (by decide)
  rcases excBindError h with h | ⟨tsb, _, h⟩
  · exact Or.inr (Or.inl ⟨_, _, h⟩)
  rcases orErrBindError h with rfl | ⟨dca, _, h⟩
  · exact Or.inl (by decide)
  rcases excBindError h with h | ⟨dib, _, h⟩
  · exact Or.inr (Or.inl ⟨_, _, h⟩)
  rcases orErrBindError h with rfl | ⟨tda, _, h⟩
  · exact Or.inl (by decide)
  rcases orErrBindError h with rfl | ⟨tcda, _, h⟩
  · exact Or.inl (by decide)
  rcases orErrBindError h with rfl | ⟨npvA, _, h⟩
  · exact Or.inl (by decide)
  rcases orErrBindError h with rfl | ⟨llp, _, h⟩
  · exact Or.inl (by decide)
  rcases excBindError h with h | ⟨pr, _, h⟩
  · rcases collatStepBranch_error h with hh | hh | hh | hh | hh | hh | hh <;>
      (rw [hh]; exact Or.inl (by decide))
  · exact absurd h (by simp)

theorem collatLoop_error {conv : PriceOps} {P : LiqParams} {rcv : Bool} {lq who : Nat}
    {e : Error} :
    ∀ {legs : List LiquidationAsset} {acc : CollatAcc},
    collatLoop conv P rcv lq who legs acc = .error e →
    e ∈ stepErrs ∨ (∃ a x, conv.toBase a x = .error e) ∨ (∃ a x, conv.fromBase a x = .error e) := by
  intro legs
  induction legs with
  | nil =>
    intro acc h
    exact absurd h (by simp [collatLoop])
  | cons leg rest ih =>
    intro acc h
    unfold collatLoop at h
    split at h
    · rename_i e' heq
      injection h with h
      exact h ▸ collatStep_error heq
    · split at h
      · exact absurd h (by simp)
      · exact ih h

theorem debtStep_error {conv : PriceOps} {lq who : Nat} {acc : DebtAcc}
    {debt : LiquidationAsset} {e : Error}
    (h : debtStep conv lq who acc debt = .error e) :
    e ∈ stepErrs ∨ (∃ a x, conv.toBase a x = .error e) ∨ (∃ a x, conv.fromBase a x = .error e) := by
  unfold debtStep at h
  rcases excBindError h with h | ⟨cdb, _, h⟩
  · exact Or.inr (Or.inl ⟨_, _, h⟩)
  rcases excBindError h with h | ⟨br, _, h⟩
  · unfold debtStepBranch at h
    split at h
    · exact absurd h (by simp)
    · rcases excBindError h with h | ⟨cmp, _, h⟩
      · exact Or.inr (Or.inr ⟨_, _, h⟩)
      rcases orErrBindError h with rfl | ⟨dtb, _, h⟩
      · exact Or.inl (by decide)
      · exact absurd h (by simp)
  · obtain ⟨tc, stA, ba, ta, fu⟩ := br
    rcases excBindError h with h | ⟨st1, _, h⟩
    · rcases tokenTransfer_error h with hh | hh <;> (rw [hh]; exact Or.inl (by decide))
    rcases excBindError h with h | ⟨st2, _, h⟩
    · rcases debtTokenBurn_error h with hh | hh <;> (rw [hh]; exact Or.inl (by decide))
    rcases orErrBindError h with rfl | ⟨dts', _, h⟩
    · exact Or.inl (by decide)
    rcases excBindError h with h | ⟨st3, _, h⟩
    · rw [addStokenUnderlyingBalance_error h]
      exact Or.inl (by decide)
    · exact absurd h (by simp)

theorem debtLoop_error {conv : PriceOps} {lq who : Nat} {e : Error} :
    ∀ {legs : List LiquidationAsset} {acc : DebtAcc},
    debtLoop conv lq who legs acc = .error e →
    e ∈ stepErrs ∨ (∃ a x, conv.toBase a x = .error e) ∨ (∃ a x, conv.fromBase a x = .error e) := by
  intro legs
  induction legs with
  | nil =>
    intro acc h
    exact absurd h (by simp [debtLoop])
  | cons leg rest ih =>
    intro acc h
    unfold debtLoop at h
    split at h
    · exact absurd h (by simp)
    · split at h
      · rename_i e' heq
        injection h with h
        exact h ▸ debtStep_error heq
      · exact ih h

/-- Errors liquidate can produce after the GoodPosition gate. -/
def liqErrs : List Error := .LiquidateMathError :: .CalcAccountDataMathError :: stepErrs

theorem liquidate_error {conv : PriceOps} {st : ChainState} {lq who : Nat} {ihBps : Int}
    {ad : AccountData} {rcv : Bool} {e : Error}
    (h : liquidate conv st lq who ihBps ad rcv = .error e) :
    (e = .Paused ∧ st.paused = true) ∨ (e = .GoodPosition ∧ 0 < ad.npv) ∨ e ∈ liqErrs ∨
      (∃ a x, conv.toBase a x = .error e) ∨ (∃ a x, conv.fromBase a x = .error e) := by
  unfold liquidate at h
  rcases excBindError h with h | ⟨u, _, h⟩
  · unfold require_not_paused at h
    split at h
    · injection h with h
      rename_i hp
      exact Or.inl ⟨h.symm, hp⟩
    · exact absurd h (by simp)
  split at h
  · injection h with h
    rename_i hg
    unfold AccountData.is_good_position at hg
    exact Or.inr (Or.inl ⟨h.symm, of_decide_eq_true hg⟩)
  rcases orErrBindError h with rfl | ⟨collats, _, h⟩
  · exact Or.inr (Or.inr (Or.inl (by decide)))
  rcases orErrBindError h with rfl | ⟨debts, _, h⟩
  · exact Or.inr (Or.inr (Or.inl (by decide)))
  split at h
  · injection h with h
    rw [← h]
    exact Or.inr (Or.inr (Or.inl (by decide)))
  rcases orErrBindError h with rfl | ⟨ih0, _, h⟩
  · exact Or.inr (Or.inr (Or.inl (by decide)))
  rcases orErrBindError h with rfl | ⟨hund, _, h⟩
  · exact Or.inr (Or.inr (Or.inl (by decide)))
  rcases orErrBindError h with rfl | ⟨npvP, _, h⟩
  · exact Or.inr (Or.inr (Or.inl (by decide)))
  rcases orErrBindError h with rfl | ⟨tdlb, _, h⟩
  · exact Or.inr (Or.inr (Or.inl (by decide)))
  rcases excBindError h with h | ⟨acc1, _, h⟩
  · rcases collatLoop_error h with hh | hh | hh
    · exact Or.inr (Or.inr (Or.inl (List.mem_cons_of_mem _ (List.mem_cons_of_mem _ hh))))
    · exact Or.inr (Or.inr (Or.inr (Or.inl hh)))
    · exact Or.inr (Or.inr (Or.inr (Or.inr hh)))
  rcases excBindError h with h | ⟨acc2, _, h⟩
  · rcases debtLoop_error h with hh | hh | hh
    · exact Or.inr (Or.inr (Or.inl (List.mem_cons_of_mem _ (List.mem_cons_of_mem _ hh))))
    · exact Or.inr (Or.inr (Or.inr (Or.inl hh)))
    · exact Or.inr (Or.inr (Or.inr (Or.inr hh)))
  · exact absurd h (by simp)

/-- Claim C2, amended: the live liquidate has no NotEnoughCollateral path at
all; whatever the position, the state and the price conversions (provided
the conversions themselves never surface that error, as the source price
provider cannot), the call never fails with NotEnoughCollateral — when the
collateral legs are exhausted with debt remaining, the debt loop simply
covers what was accumulated and the call succeeds.  The check exists only
in the commented-out do_liquidate routine. -/
theorem c2_liquidate_never_not_enough_collateral
    (conv : PriceOps)
    (hT : ∀ a x, conv.toBase a x ≠ .error .NotEnoughCollateral)
    (hF : ∀ a x, conv.fromBase a x ≠ .error .NotEnoughCollateral)
    (st : ChainState) (lq who : Nat) (ihBps : Int) (ad : AccountData) (rcv : Bool) :
    liquidate conv st lq who ihBps ad rcv ≠ .error .NotEnoughCollateral := by
  intro h
  rcases liquidate_error h with ⟨he, _⟩ | ⟨he, _⟩ | he | ⟨a, x, hc⟩ | ⟨a, x, hc⟩
  · exact absurd he (by decide)
  · exact absurd he (by decide)
  · exact absurd he (by decide)
  · exact hT a x hc
  · exact hF a x hc

/-- Witness for c2_liquidate_never_not_enough_collateral at the concrete C2
scenario with the identity price conversions. -/
theorem c2_liquidate_never_not_enough_collateral_witness :
    liquidate idPriceOps stC2 200 100 0 adC2 false ≠ .error .NotEnoughCollateral :=
  c2_liquidate_never_not_enough_collateral idPriceOps
    (fun a x h => by simp [idPriceOps] at h)
    (fun a x h => by simp [idPriceOps] at h)
    stC2 200 100 0 adC2 false

/-! ## Claim C4: the GoodPosition gate -/

/-- Claim C4: with the pool not paused (and price conversions that never
surface GoodPosition themselves, as the source price provider cannot),
liquidate fails with GoodPosition exactly when the account data computed at
entry has npv strictly positive; for npv at most zero the call gets past
the check, and when the error fires the call produces no post state (the
soroban panic aborts the transaction, so nothing is persisted). -/
theorem c4_good_position_iff_positive_npv
    (conv : PriceOps) (st : ChainState) (lq who : Nat) (ihBps : Int)
    (ad : AccountData) (rcv : Bool)
    (hp : st.paused = false)
    (hT : ∀ a x, conv.toBase a x ≠ .error .GoodPosition)
    (hF : ∀ a x, conv.fromBase a x ≠ .error .GoodPosition) :
    liquidate conv st lq who ihBps ad rcv = .error .GoodPosition ↔ 0 < ad.npv := by
  constructor
  · intro h
    rcases liquidate_error h with ⟨he, hps⟩ | ⟨_, hn⟩ | he | ⟨a, x, hc⟩ | ⟨a, x, hc⟩
    · exact absurd he (by decide)
    · exact hn
    · exact absurd he (by decide)
    · exact absurd hc (hT a x)
    · exact absurd hc (hF a x)
  · intro h
    unfold liquidate require_not_paused
    rw [hp]
    have hg : ad.is_good_position = true := by
      unfold AccountData.is_good_position
      exact decide_eq_true h
    simp [hg, Bind.bind, Except.bind]

/-- An account with positive npv for the C4 witness. -/
def adGood : AccountData :=
  { discountedCollateral := 1000, debt := 995, npv := 5
  , liquidationCollat := some [leg1C1], liquidationDebt := some [dlegC1] }

/-- Witness for c4_good_position_iff_positive_npv: liquidating a target
whose npv is 5 fails with GoodPosition. -/
theorem c4_good_position_iff_positive_npv_witness :
    liquidate idPriceOps stC1 200 100 1000 adGood false = .error .GoodPosition :=
  (c4_good_position_iff_positive_npv idPriceOps stC1 200 100 1000 adGood false rfl
    (fun a x h => by simp [idPriceOps] at h)
    (fun a x h => by simp [idPriceOps] at h)).mpr (by decide)

/-! ## Claim C3: pause and grace gating of flash_loan and liquidate -/

/-- Errors the first flash-loan pass can surface. -/
def p1Errs : List Error :=
  [.MustBePositive, .NoReserveExistForAsset, .NoActiveReserve, .BorrowingNotEnabled,
   .NegativeAmount, .InsufficientBalance, .MathOverflowError]

theorem flashLoanPhase1_error {rm : Nat → Option ReserveInfo} {rcvr : Nat} {fee : FixedI128}
    {e : Error} :
    ∀ {st : ChainState} {legs : List FlashLoanAsset},
    flashLoanPhase1 rm rcvr fee st legs = .error e → e ∈ p1Errs := by
  intro st legs
  induction legs generalizing st with
  | nil =>
    intro h
    exact absurd h (by simp [flashLoanPhase1])
  | cons la rest ih =>
    intro h
    unfold flashLoanPhase1 at h
    split at h
    · injection h with h
      rw [← h]
      decide
    rcases orErrBindError h with rfl | ⟨rsv, _, h⟩
    · decide
    split at h
    · injection h with h
      rw [← h]
      decide
    split at h
    · injection h with h
      rw [← h]
      decide
    rcases excBindError h with h | ⟨st1, _, h⟩
    · rcases sTokenTransferUnderlyingTo_error h with hh | hh <;> (rw [hh]; decide)
    rcases orErrBindError h with rfl | ⟨prem, _, h⟩
    · decide
    rcases excBindError h with h | ⟨pr, _, h⟩
    · exact ih h
    · exact absurd h (by simp)

theorem flashLoanPhase1_borrow {rm : Nat → Option ReserveInfo} {rcvr : Nat} {fee : FixedI128} :
    ∀ {st : ChainState} {legs : List FlashLoanAsset} {pr : ChainState × List LoanLeg},
    flashLoanPhase1 rm rcvr fee st legs = .ok pr → (∀ la ∈ legs, la.borrow = false) →
    ∀ leg ∈ pr.2, leg.borrow = false := by
  intro st legs
  induction legs generalizing st with
  | nil =>
    intro pr h _
    have : pr = (st, []) := by simpa [flashLoanPhase1] using h.symm
    rw [this]
    simp
  | cons la rest ih =>
    intro pr h hlegs
    unfold flashLoanPhase1 at h
    split at h
    · exact absurd h (by simp)
    rcases excBindOk h with ⟨rsv, _, h⟩
    split at h
    · exact absurd h (by simp)
    split at h
    · exact absurd h (by simp)
    rcases excBindOk h with ⟨st1, _, h⟩
    rcases excBindOk h with ⟨prem, _, h⟩
    rcases excBindOk h with ⟨pr1, hpr1, h⟩
    injection h with h
    intro leg hm
    rw [← h] at hm
    simp only [List.mem_cons] at hm
    rcases hm with hm | hm
    · rw [hm]
      exact hlegs la (List.mem_cons_self la rest)
    · exact ih hpr1 (fun x hx => hlegs x (List.mem_cons_of_mem la hx)) leg hm

/-- Errors the second flash-loan pass can surface on a non-borrow leg. -/
def p2Errs : List Error := [.MathOverflowError, .NegativeAmount, .InsufficientBalance]

theorem flashLoanLeg2_error {dbf : ChainState → Nat → Nat → Int → Except Error ChainState}
    {who rcvr tr : Nat} {st : ChainState} {leg : LoanLeg} {e : Error}
    (hb : leg.borrow = false)
    (h : flashLoanLeg2 dbf who rcvr tr st leg = .error e) : e ∈ p2Errs := by
  unfold flashLoanLeg2 at h
  rw [hb] at h
  rw [if_pos (by simp : ¬false = true)] at h
  rcases orErrBindError h with rfl | ⟨awp, _, h⟩
  · decide
  rcases excBindError h with h | ⟨st1, _, h⟩
  · rcases tokenTransfer_error h with hh | hh <;> (rw [hh]; decide)
  · rcases sTokenTransferUnderlyingTo_error h with hh | hh <;> (rw [hh]; decide)

theorem flashLoanPhase2_error {dbf : ChainState → Nat → Nat → Int → Except Error ChainState}
    {who rcvr tr : Nat} {e : Error} :
    ∀ {st : ChainState} {legs : List LoanLeg},
    (∀ leg ∈ legs, leg.borrow = false) →
    flashLoanPhase2 dbf who rcvr tr st legs = .error e → e ∈ p2Errs := by
  intro st legs
  induction legs generalizing st with
  | nil =>
    intro _ h
    exact absurd h (by simp [flashLoanPhase2])
  | cons leg rest ih =>
    intro hlegs h
    unfold flashLoanPhase2 at h
    rcases excBindError h with h | ⟨st1, _, h⟩
    · exact flashLoanLeg2_error (hlegs leg (List.mem_cons_self leg rest)) h
    · exact ih (fun x hx => hlegs x (List.mem_cons_of_mem leg hx)) h

/-- The errors a flash loan whose legs are all borrow = false can surface. -/
def flErrs : List Error :=
  .Paused :: .FlashLoanReceiverError :: p1Errs ++ p2Errs

theorem flash_loan_error {dbf : ChainState → Nat → Nat → Int → Except Error ChainState}
    {st : ChainState} {who rcvr tr : Nat} {rm : Nat → Option ReserveInfo} {feeBps : Int}
    {legs : List FlashLoanAsset} {rok : Bool} {e : Error}
    (hlegs : ∀ la ∈ legs, la.borrow = false)
    (h : flash_loan dbf st who rcvr tr rm feeBps legs rok = .error e) :
    e ∈ flErrs := by
  unfold flash_loan at h
  rcases excBindError h with h | ⟨u, _, h⟩
  · unfold require_not_paused at h
    split at h
    · injection h with h
      rw [← h]
      decide
    · exact absurd h (by simp)
  rcases orErrBindError h with rfl | ⟨fee, _, h⟩
  · decide
  split at h
  · injection h with h
    rw [← h]
    decide
  rcases excBindError h with h | ⟨pr, hpr, h⟩
  · have := flashLoanPhase1_error h
    simp [flErrs, p1Errs] at this ⊢
    tauto
  split at h
  · injection h with h
    rw [← h]
    decide
  rcases excBindError h with h | ⟨st2, _, h⟩
  · have := flashLoanPhase2_error (flashLoanPhase1_borrow hpr hlegs) h
    simp [flErrs, p2Errs] at this ⊢
    tauto
  · exact absurd h (by simp)

/-- Claim C3, amended: flash_loan and liquidate gate only on the pause flag:
when the pool is paused both fail with Paused; when it is not paused they
never fail with GracePeriod, even inside the grace window after an unpause
(a flash_loan with every leg borrow = false, and any liquidate whose price
conversions do not themselves surface GracePeriod).  The grace gate lives
in the borrow path, which the repo tests exercise via flash_loan with
borrow = true. -/
theorem c3_flash_loan_liquidate_pause_flag_only :
    (∀ dbf st who rcvr tr rm feeBps legs rok, st.paused = true →
      flash_loan dbf st who rcvr tr rm feeBps legs rok = .error .Paused) ∧
    (∀ conv st lq who ihBps ad rs, st.paused = true →
      liquidate conv st lq who ihBps ad rs = .error .Paused) ∧
    (∀ dbf st who rcvr tr rm feeBps legs rok, (∀ la ∈ legs, la.borrow = false) →
      flash_loan dbf st who rcvr tr rm feeBps legs rok ≠ .error .GracePeriod) ∧
    (∀ conv : PriceOps, (∀ a x, conv.toBase a x ≠ .error .GracePeriod) →
      (∀ a x, conv.fromBase a x ≠ .error .GracePeriod) →
      ∀ st lq who ihBps ad rs, liquidate conv st lq who ihBps ad rs ≠ .error .GracePeriod) := by
  refine ⟨?_, ?_, ?_, ?_⟩
  · intro dbf st who rcvr tr rm feeBps legs rok hp
    unfold flash_loan require_not_paused
    rw [hp]
    simp [Bind.bind, Except.bind]
  · intro conv st lq who ihBps ad rs hp
    unfold liquidate require_not_paused
    rw [hp]
    simp [Bind.bind, Except.bind]
  · intro dbf st who rcvr tr rm feeBps legs rok hlegs h
    exact absurd (flash_loan_error hlegs h) (by decide)
  · intro conv hT hF st lq who ihBps ad rs h
    rcases liquidate_error h with ⟨he, _⟩ | ⟨he, _⟩ | he | ⟨a, x, hc⟩ | ⟨a, x, hc⟩
    · exact absurd he (by decide)
    · exact absurd he (by decide)
    · exact absurd he (by decide)
    · exact absurd hc (hT a x)
    · exact absurd hc (hF a x)

/-! ## Concrete flash-loan scenario

Assets 1, 2, 3 with s-token contracts 21, 22, 23; caller 99, receiver 300,
treasury 400.  The state sits inside the grace window: unpaused at 100 with
a 50 second grace period, current time 110. -/

def flBal (t u : Nat) : Int :=
  if t = 1 ∧ u = 21 then 2000000
  else if t = 2 ∧ u = 22 then 5000000
  else if t = 3 ∧ u = 23 then 5000000
  else if t = 1 ∧ u = 300 then 10000000
  else if t = 2 ∧ u = 300 then 10000000
  else if t = 3 ∧ u = 300 then 10000000
  else 0

def stFL : ChainState :=
  { paused := false, unpausedAt := 100, gracePeriodSecs := 50, now := 110
  , tokenBalance := flBal, totalSupply := fun _ => 0, mirrorBalance := fun _ _ => 0
  , mirrorSupply := fun _ => 0, stokenUnderlying := fun _ => 0
  , collateralBit := fun _ _ => false, borrowBit := fun _ _ => false }

def rsvMapFL (a : Nat) : Option ReserveInfo :=
  if a = 1 then some { sTokenAddress := 21, debtTokenAddress := 31, active := true, borrowingEnabled := true }
  else if a = 2 then some { sTokenAddress := 22, debtTokenAddress := 32, active := true, borrowingEnabled := true }
  else if a = 3 then some { sTokenAddress := 23, debtTokenAddress := 33, active := true, borrowingEnabled := true }
  else none

/-- Stand-in for the abstract borrow path; never reached when every leg has
borrow = false. -/
def noBorrowFn : ChainState → Nat → Nat → Int → Except Error ChainState :=
  fun s _ _ _ => .ok s

def flLegs : List FlashLoanAsset :=
  [ { asset := 1, amount := 1000000, borrow := false }
  , { asset := 2, amount := 2000000, borrow := false }
  , { asset := 3, amount := 3000000, borrow := false } ]

/-- Counterexample to claim C3 as stated: the state is inside the grace
window (now 110 is before unpause time 100 plus grace 50) and the pool is
not paused, yet flash_loan with borrow = false legs completes successfully
instead of being rejected with GracePeriod.  The repo test
should_not_fail_in_grace_period asserts this same behaviour. -/
theorem c3_flash_loan_in_grace_period_succeeds_cex :
    inGracePeriod stFL = true ∧ stFL.paused = false ∧
    (flash_loan noBorrowFn stFL 99 300 400 rsvMapFL 5 flLegs true).map (fun _ => ()) = .ok () :=
  ⟨rfl, rfl, rfl⟩

/-- Witness for c3_flash_loan_liquidate_pause_flag_only at concrete inputs:
a paused pool rejects both entry points with Paused, and inside the grace
window neither rejects with GracePeriod. -/
theorem c3_flash_loan_liquidate_pause_flag_only_witness :
    flash_loan noBorrowFn { stFL with paused := true } 99 300 400 rsvMapFL 5 flLegs true
      = .error .Paused ∧
    liquidate idPriceOps { stC1 with paused := true } 200 100 1000 adC1 false
      = .error .Paused ∧
    flash_loan noBorrowFn stFL 99 300 400 rsvMapFL 5 flLegs true ≠ .error .GracePeriod ∧
    liquidate idPriceOps stFL 200 100 1000 adC1 false ≠ .error .GracePeriod :=
  ⟨c3_flash_loan_liquidate_pause_flag_only.1 noBorrowFn _ 99 300 400 rsvMapFL 5 flLegs true rfl,
   c3_flash_loan_liquidate_pause_flag_only.2.1 idPriceOps _ 200 100 1000 adC1 false rfl,
   c3_flash_loan_liquidate_pause_flag_only.2.2.1 noBorrowFn stFL 99 300 400 rsvMapFL 5 flLegs true
     (by decide),
   c3_flash_loan_liquidate_pause_flag_only.2.2.2 idPriceOps
     (fun a x h => by simp [idPriceOps] at h)
     (fun a x h => by simp [idPriceOps] at h)
     stFL 200 100 1000 adC1 false⟩

/-! ## Claim C6: flash-loan premiums -/

/-- Counterexample to claim C6 as stated: with flash_loan_fee = 5 bps the
premium of the 1_000_000 leg is fee times amount = 500, not the 5 the claim
asserts (the repo test obtains 5 for an amount of 10_000). -/
theorem c6_first_leg_premium_cex :
    (flash_loan noBorrowFn stFL 99 300 400 rsvMapFL 5 flLegs true).map (fun pr => pr.2)
      = .ok [500, 1000, 1500] ∧
    ¬ (flash_loan noBorrowFn stFL 99 300 400 rsvMapFL 5 flLegs true).map (fun pr => pr.2)
      = .ok [5, 1000, 1500] :=
  ⟨rfl, by intro h; rw [show (flash_loan noBorrowFn stFL 99 300 400 rsvMapFL 5 flLegs true).map (fun pr => pr.2) = .ok [500, 1000, 1500] from rfl] at h; injection h with h; simp at h⟩

/-- Claim C6, amended: with flash_loan_fee = 5 bps, the three-leg loan of
1_000_000, 2_000_000 and 3_000_000 with borrow = false credits the treasury
with the premiums 500, 1000 and 1500 (fee times amount, truncated toward
zero), and leaves the underlying balances of the three s-token contracts
unchanged at their initial values 2_000_000, 5_000_000 and 5_000_000. -/
theorem c6_flash_loan_premiums_and_balances :
    (flash_loan noBorrowFn stFL 99 300 400 rsvMapFL 5 flLegs true).map
      (fun pr => (pr.2,
        pr.1.tokenBalance 1 400, pr.1.tokenBalance 2 400, pr.1.tokenBalance 3 400,
        pr.1.tokenBalance 1 21, pr.1.tokenBalance 2 22, pr.1.tokenBalance 3 23))
      = .ok ([500, 1000, 1500], 500, 1000, 1500, 2000000, 5000000, 5000000) ∧
    stFL.tokenBalance 1 400 = 0 ∧ stFL.tokenBalance 2 400 = 0 ∧ stFL.tokenBalance 3 400 = 0 ∧
    stFL.tokenBalance 1 21 = 2000000 ∧ stFL.tokenBalance 2 22 = 5000000 ∧
    stFL.tokenBalance 3 23 = 5000000 :=
  ⟨rfl, rfl, rfl, rfl, rfl, rfl, rfl⟩

/-! ## Claim C8: the initial-health admission bound -/

theorem validate_position_after_ok {ihBps : Int} {post : PositionSnapshot} {u : Unit}
    (h : validate_position_after ihBps post = .ok u) :
    ∃ ih bound, FixedI128.from_percentage ihBps = some ih ∧
      ih.mul_int post.discountedCollateral = some bound ∧
      0 < post.npv ∧ bound ≤ post.npv := by
  unfold validate_position_after at h
  rcases excBindOk h with ⟨ih, hih, h⟩
  rcases excBindOk h with ⟨bound, hb, h⟩
  refine ⟨ih, bound, orErr_ok hih, orErr_ok hb, ?_⟩
  split at h
  · assumption
  · exact absurd h (by simp)

theorem validate_position_after_reject {ihBps : Int} {post : PositionSnapshot}
    {ih : FixedI128} {bound : Int}
    (h1 : FixedI128.from_percentage ihBps = some ih)
    (h2 : ih.mul_int post.discountedCollateral = some bound)
    (h3 : ¬(0 < post.npv ∧ bound ≤ post.npv)) :
    validate_position_after ihBps post = .error .CollateralNotCoverNewBorrow := by
  unfold validate_position_after
  rw [h1]
  simp only [orErr, Bind.bind, Except.bind]
  rw [h2]
  simp [if_neg h3]

/-- Claim C8: a borrow (or withdraw) that completes leaves the post
position satisfying npv at least initial_health times discounted collateral
over 10000 (via from_percentage and mul_int) and strictly positive npv;
and a borrow whose prospective post state violates the bound fails with
CollateralNotCoverNewBorrow, leaving the pre state untouched. -/
theorem c8_borrow_withdraw_initial_health_bound
    (ihBps : Int) (pre post : PositionSnapshot) (a : Int) :
    (borrow_model ihBps pre a = .ok post →
      ∃ ih bound, FixedI128.from_percentage ihBps = some ih ∧
        ih.mul_int post.discountedCollateral = some bound ∧
        0 < post.npv ∧ bound ≤ post.npv) ∧
    (withdraw_model ihBps pre a = .ok post →
      ∃ ih bound, FixedI128.from_percentage ihBps = some ih ∧
        ih.mul_int post.discountedCollateral = some bound ∧
        0 < post.npv ∧ bound ≤ post.npv) ∧
    (∀ ih bound, FixedI128.from_percentage ihBps = some ih →
      ih.mul_int pre.discountedCollateral = some bound →
      ¬(0 < pre.npv - a ∧ bound ≤ pre.npv - a) →
      borrow_model ihBps pre a = .error .CollateralNotCoverNewBorrow) := by
  refine ⟨?_, ?_, ?_⟩
  · intro h
    unfold borrow_model at h
    rcases excBindOk h with ⟨u, hv, h⟩
    injection h with h
    rw [← h]
    exact validate_position_after_ok hv
  · intro h
    unfold withdraw_model at h
    rcases excBindOk h with ⟨u, hv, h⟩
    injection h with h
    rw [← h]
    exact validate_position_after_ok hv
  · intro ih bound h1 h2 h3
    unfold borrow_model
    rw [@validate_position_after_reject ihBps
      { discountedCollateral := pre.discountedCollateral, debt := pre.debt + a, npv := pre.npv - a }
      ih bound h1 h2 h3]
    rfl

/-- Pre position of the C8 witness: collateral 1000, no debt. -/
def preC8 : PositionSnapshot := ⟨1000, 0, 1000⟩

/-- Post position of the C8 witness after borrowing 100 in base terms. -/
def postC8 : PositionSnapshot := ⟨1000, 100, 900⟩

/-- Witness for c8_borrow_withdraw_initial_health_bound: with initial
health 2500 bps, a borrow of 100 from the concrete pre position succeeds
and the bound 250 is below the post npv 900. -/
theorem c8_borrow_withdraw_initial_health_bound_witness :
    ∃ ih bound, FixedI128.from_percentage 2500 = some ih ∧
      ih.mul_int postC8.discountedCollateral = some bound ∧
      0 < postC8.npv ∧ bound ≤ postC8.npv :=
  (c8_borrow_withdraw_initial_health_bound 2500 preC8 postC8 100).1 rfl

/-! ## Claim C9: the permission table keeps a holder -/

/-- Claim C9: revoking Permission::Permission when its owners list has
exactly one element fails with NoPermissioned whoever calls (the caller
gate also reports NoPermissioned), so the table is unchanged; every
successful revoke_permission keeps at least one Permission::Permission
holder; and any sequence of revoke_permission calls preserves the
at-least-one-holder invariant. -/
theorem c9_revoke_permission_keeps_last_holder :
    (∀ (tbl : PermTable) (who owner : Nat), (tbl .permission).length = 1 →
      revoke_permission tbl who owner .permission = .error .NoPermissioned) ∧
    (∀ (tbl : PermTable) (who owner : Nat) (perm : Permission) (tbl' : PermTable),
      1 ≤ (tbl .permission).length →
      revoke_permission tbl who owner perm = .ok tbl' →
      1 ≤ (tbl' .permission).length) ∧
    (∀ (calls : List (Nat × Nat × Permission)) (tbl : PermTable),
      1 ≤ (tbl .permission).length →
      1 ≤ (applyRevocations tbl calls .permission).length) := by
  have hstep : ∀ (tbl : PermTable) (who owner : Nat) (perm : Permission) (tbl' : PermTable),
      1 ≤ (tbl .permission).length →
      revoke_permission tbl who owner perm = .ok tbl' →
      1 ≤ (tbl' .permission).length := by
    intro tbl who owner perm tbl' hlen h
    unfold revoke_permission require_permission at h
    by_cases hw : who ∈ tbl .permission
    · rw [if_pos hw] at h
      simp only [Bind.bind, Except.bind] at h
      split at h
      · exact absurd h (by simp)
      · rename_i hcond
        split at h
        · injection h with h
          rw [← h]
          by_cases hp : perm = Permission.permission
          · subst hp
            show 1 ≤ ((tbl Permission.permission).erase owner).length
            rename_i hown
            rw [List.length_erase_of_mem hown]
            have hne : (tbl Permission.permission).length ≠ 1 := fun hl => hcond ⟨rfl, hl⟩
            omega
          · show 1 ≤ (if Permission.permission = perm then (tbl perm).erase owner else tbl Permission.permission).length
            rw [if_neg (fun hh => hp hh.symm)]
            exact hlen
        · injection h with h
          rw [← h]
          exact hlen
    · rw [if_neg hw] at h
      exact absurd h (by simp [Bind.bind, Except.bind])
  refine ⟨?_, hstep, ?_⟩
  · intro tbl who owner hlen
    unfold revoke_permission require_permission
    by_cases hw : who ∈ tbl .permission
    · rw [if_pos hw]
      simp only [Bind.bind, Except.bind]
      rw [if_pos (⟨trivial, hlen⟩ : True ∧ (tbl Permission.permission).length = 1)]
    · rw [if_neg hw]
      rfl
  · intro calls
    induction calls with
    | nil =>
      intro tbl hlen
      exact hlen
    | cons c rest ih =>
      intro tbl hlen
      unfold applyRevocations
      cases hr : revoke_permission tbl c.1 c.2.1 c.2.2 with
      | ok t => exact ih t (hstep tbl c.1 c.2.1 c.2.2 t hlen hr)
      | error e => exact ih tbl hlen

/-- A table with a single Permission::Permission holder for the C9
witness. -/
def tblC9 : PermTable :=
  fun p => if p = .permission then [7] else []

/-- Witness for c9_revoke_permission_keeps_last_holder: revoking from the
single-holder table errors with NoPermissioned, and a concrete call
sequence keeps a holder. -/
theorem c9_revoke_permission_keeps_last_holder_witness :
    revoke_permission tblC9 7 7 .permission = .error .NoPermissioned ∧
    1 ≤ (applyRevocations tblC9 [(7, 7, .permission), (7, 7, .other 0)] .permission).length :=
  ⟨c9_revoke_permission_keeps_last_holder.1 tblC9 7 7 (by decide),
   c9_revoke_permission_keeps_last_holder.2.2 [(7, 7, .permission), (7, 7, .other 0)] tblC9 (by decide)⟩

/-! ## Claim C10: zero-amount mint and burn panic -/

/-- State for the C10 deposit consequence: the depositor 100 holds 10 units
of asset 0. -/
def stDep : ChainState :=
  { paused := false, unpausedAt := 0, gracePeriodSecs := 0, now := 0
  , tokenBalance := fun t u => if t = 0 ∧ u = 100 then 10 else 0
  , totalSupply := fun _ => 0, mirrorBalance := fun _ _ => 0
  , mirrorSupply := fun _ => 0, stokenUnderlying := fun _ => 0
  , collateralBit := fun _ _ => false, borrowBit := fun _ _ => false }

/-- Claim C10: SToken::do_mint panics on a zero amount and SToken::do_burn
panics on a zero burn amount (both modelled as the dedicated panic errors,
which abort the transaction); consequently a deposit of 1 unit against a
collateral coefficient of 2 computes a mint amount of 0 and aborts with
the mint panic instead of completing as a no-op, even though the deposit
amount itself is positive. -/
theorem c10_zero_mint_burn_panics :
    (∀ (st : ChainState) (sT u : Nat), sTokenDoMint st sT u 0 = .error .InvalidMintAmount) ∧
    (∀ (st : ChainState) (sT ua f : Nat) (w : Int) (g : Nat),
      sTokenDoBurn st sT ua f 0 w g = .error .InvalidBurnAmount) ∧
    do_deposit stDep 11 0 100 ⟨2000000000⟩ 1 = .error .InvalidMintAmount ∧
    (1 : Int) ≠ 0 := by
  refine ⟨?_, ?_, by rfl, by decide⟩
  · intro st sT u
    simp [sTokenDoMint]
  · intro st sT ua f w g
    simp [sTokenDoBurn]

end Slender
